import Mathlib

/-!
# I2CMatrix: host-side driver for an I2C LED-matrix slave

Shallow embedding of `src/I2CMatrix.h` and `src/I2CMatrix.cpp`.

* `byte` values are natural numbers below 256; a store of an `int` expression into a
  `byte` is written `toByte`.
* `int` is the 16-bit `int` of the AVR targets the library is written for, represented
  by the natural number below `2 ^ 16` with the same bit pattern (negative values by
  their complement pattern).
* The `Wire` object (the I2C transport, an external collaborator) is a record that
  buffers the bytes of the open transmission and logs what reaches the bus.
-/

namespace I2CMatrix

/-! ## Machine arithmetic -/

/-- Conversion of an `int` value to `byte` (`uint8_t`): the low eight bits. -/
def toByte (n : Nat) : Nat := n % 256

/-- Number of value bits of `int`. -/
def INT_BITS : Nat := 16

/-- The `int` expression `0x01 << n`, as a 16-bit pattern. For `n >= 15` the C result is
not a defined positive `int`; the wrapped pattern stands for it here, and every theorem
below that depends on the value of the shift restricts `n` to `[0,14]`. -/
def shl1 (n : Nat) : Nat := (1 <<< n) % 2 ^ INT_BITS

/-- The `int` expression `~x`, as a 16-bit pattern. -/
def intNot (x : Nat) : Nat := 2 ^ INT_BITS - 1 - x % 2 ^ INT_BITS

/-- Conversion of an `int` value to `bool`: true exactly when non-zero. -/
def toBool (n : Nat) : Bool := n != 0

/-! ## Command codes (`I2CMatrix.h`, lines 22-40) -/

def RESET : Nat := 0x00
def CONNECTED : Nat := 0x01
def ENABLE : Nat := 0x02
def BRIGHTNESS : Nat := 0x03
def MODE : Nat := 0x04
def UNIT : Nat := 0x05
def BYTE1 : Nat := 0x06
def BYTE2 : Nat := 0x07
def BYTE3 : Nat := 0x08
def BYTE4 : Nat := 0x09
def BYTE5 : Nat := 0x0A
def BYTE6 : Nat := 0x0B
def BYTE7 : Nat := 0x0C
def BYTE8 : Nat := 0x0D
def GETVERSION : Nat := 0x0E

/-! ## The bus transport -/

/-- Modelled from the spec: the bus transport (`Wire`, `delay`) is an external
collaborator that is not part of the sources. One entry of the log is something the
outside world can observe: a write transmission framed by begin-transmission and
end-transmission (slave address, bytes in the order written, stop flag), the blocking
settle delay, or a read request (slave address, byte count). -/
inductive Event where
  | transmission (address : Nat) (bytes : List Nat) (sendStop : Bool)
  | delay (ms : Nat)
  | requestFrom (address : Nat) (quantity : Nat)
  deriving DecidableEq, Repr

/-- Modelled from the spec: state of the bus transport named by the collaborator
contract (begin-bus, begin-transmission, write-byte, end-transmission, request-read,
read-byte). `slave` is the stream of bytes the slave will hand over on read requests. -/
structure Wire where
  started : Bool
  txAddress : Nat
  txBuffer : List Nat
  rxBuffer : List Nat
  slave : List Nat
  trace : List Event
  deriving DecidableEq, Repr

namespace Wire

/-- Modelled from the spec: begin-bus. -/
def begin (w : Wire) : Wire := { w with started := true }

/-- Modelled from the spec: begin-transmission(address) opens a fresh frame. -/
def beginTransmission (w : Wire) (address : Nat) : Wire :=
  { w with txAddress := address, txBuffer := [] }

/-- Modelled from the spec: write-byte queues one byte in the open frame. -/
def write (w : Wire) (data : Nat) : Wire :=
  { w with txBuffer := w.txBuffer ++ [data] }

/-- Modelled from the spec: write-byte applied to an `int` argument, which the
transport narrows to a byte. -/
def writeInt (w : Wire) (n : Nat) : Wire := w.write (toByte n)

/-- Modelled from the spec: end-transmission(stopBit) puts the frame on the bus. -/
def endTransmission (w : Wire) (sendStop : Bool) : Wire :=
  { w with
    txBuffer := []
    trace := w.trace ++ [Event.transmission w.txAddress w.txBuffer sendStop] }

/-- Modelled from the spec: request-read(address, byteCount) fetches up to
`quantity` bytes from the slave into the receive buffer. -/
def requestFrom (w : Wire) (address quantity : Nat) : Wire :=
  { w with
    rxBuffer := w.slave.take quantity
    slave := w.slave.drop quantity
    trace := w.trace ++ [Event.requestFrom address quantity] }

/-- Modelled from the spec: read-byte returns the next received byte as an `int`,
or `-1` (bit pattern `0xFFFF`) when nothing is left. -/
def read (w : Wire) : Nat × Wire :=
  match w.rxBuffer with
  | [] => (0xFFFF, w)
  | b :: rest => (b, { w with rxBuffer := rest })

end Wire

/-- Modelled from the spec: the blocking settle delay. -/
def delay (w : Wire) (ms : Nat) : Wire :=
  { w with trace := w.trace ++ [Event.delay ms] }

/-! ## The driver object (`I2CMatrix.h`, lines 73-78) -/

structure Driver where
  _i2c_address : Nat
  _num_displays : Nat
  _brightness : Nat
  _mode : Nat
  _enabled : Nat
  _device_info : Fin 4 → Nat

/-! ## Accessors (`I2CMatrix.cpp`, lines 12-15) -/

def getFWVersion (s : Driver) : Nat := s._device_info 0
def getNumDisplays (s : Driver) : Nat := s._device_info 1
def getEnabled (s : Driver) : Nat := s._device_info 2
def getRCMode (s : Driver) : Nat := s._device_info 3

/-! ## Write operations (`I2CMatrix.cpp`, lines 17-73) -/

/-- The loop `for (int idy = 7; idy >= 0; idy--) Wire.write(content[idy]);`, with
`n = idy + 1` iterations left. -/
def writeDisplayLoop (content : Nat → Nat) : Nat → Wire → Wire
  | 0, w => w
  | idy + 1, w => writeDisplayLoop content idy (w.write (content idy))

def writeDisplay (s : Driver) (w : Wire) (disp : Nat) (content : Nat → Nat) :
    Driver × Wire :=
  let w := w.beginTransmission s._i2c_address
  let w := w.writeInt UNIT
  let w := w.write disp
  let w := writeDisplayLoop content 8 w
  let w := w.endTransmission true
  (s, w)

/-- The two transmissions shared by `writeColumn` and `writeRow`: select the display,
then write one slot. -/
def selectAndWrite (s : Driver) (w : Wire) (disp num content : Nat) : Wire :=
  let w := w.beginTransmission s._i2c_address
  let w := w.writeInt UNIT
  let w := w.write disp
  let w := w.endTransmission true
  let w := w.beginTransmission s._i2c_address
  let w := w.writeInt (BYTE1 + num)
  let w := w.write content
  w.endTransmission true

def writeColumn (s : Driver) (w : Wire) (disp colnum content : Nat) : Driver × Wire :=
  let isColumn := toBool (s._mode &&& shl1 disp)
  if !isColumn then
    let s := { s with _mode := toByte (s._mode ||| shl1 disp) }
    let w := w.beginTransmission s._i2c_address
    let w := w.writeInt MODE
    let w := w.write s._mode
    let w := w.endTransmission true
    (s, selectAndWrite s w disp colnum content)
  else
    (s, selectAndWrite s w disp colnum content)

def writeRow (s : Driver) (w : Wire) (disp rownum content : Nat) : Driver × Wire :=
  let isColumn := toBool (s._mode &&& shl1 disp)
  if isColumn then
    let s := { s with _mode := toByte (s._mode &&& intNot (shl1 disp)) }
    let w := w.beginTransmission s._i2c_address
    let w := w.writeInt MODE
    let w := w.write s._mode
    let w := w.endTransmission true
    (s, selectAndWrite s w disp rownum content)
  else
    (s, selectAndWrite s w disp rownum content)

def setBrightness (s : Driver) (w : Wire) (level : Nat) : Driver × Wire :=
  let s := { s with _brightness := toByte (level &&& 0x0F) }
  let w := w.beginTransmission s._i2c_address
  let w := w.writeInt BRIGHTNESS
  let w := w.write s._brightness
  let w := w.endTransmission true
  (s, w)

/-! ## Initialisation (`I2CMatrix.cpp`, lines 75-110) -/

/-- The loop `for (int x = _num_displays; x > 0; x--) _enabled |= (1 << (x-1));`,
with `x` the loop variable and `enabled` the field being accumulated. -/
def enabledLoop : Nat → Nat → Nat
  | 0, enabled => enabled
  | x + 1, enabled => enabledLoop x (toByte (enabled ||| shl1 x))

def _readDeviceInfo (s : Driver) (w : Wire) : Driver × Wire :=
  let w := w.beginTransmission s._i2c_address
  let w := w.writeInt GETVERSION
  let w := w.endTransmission false
  let w := w.requestFrom s._i2c_address 4
  let r0 := w.read
  let s := { s with _device_info := Function.update s._device_info 0 (toByte (r0.1 &&& 0x7F)) }
  let r1 := r0.2.read
  let s := { s with _device_info := Function.update s._device_info 1 (toByte (r1.1 &&& 0x7F)) }
  let r2 := r1.2.read
  let s := { s with _device_info := Function.update s._device_info 2 (toByte (r2.1 &&& 0x7F)) }
  let r3 := r2.2.read
  let s := { s with _device_info := Function.update s._device_info 3 (toByte (r3.1 &&& 0x7F)) }
  (s, r3.2)

def _init (s : Driver) (w : Wire) : Driver × Wire :=
  let w := w.begin
  let w := w.beginTransmission s._i2c_address
  let w := w.writeInt RESET
  let w := w.writeInt 0x00
  let w := w.endTransmission true
  let w := delay w 500
  let s := { s with _enabled := 0 }
  let s := { s with _enabled := enabledLoop s._num_displays s._enabled }
  let w := w.beginTransmission s._i2c_address
  let w := w.writeInt CONNECTED
  let w := w.write s._num_displays
  let w := w.write s._enabled
  let w := w.write s._brightness
  let w := w.writeInt 0
  let w := w.endTransmission true
  _readDeviceInfo s w

/-- The four-argument constructor (`I2CMatrix.h`, lines 42-49). The snapshot array has
no initialiser; it is taken as the parameter `info0` and fully overwritten by `_init`. -/
def new4 (info0 : Fin 4 → Nat) (w : Wire) (address numdisplays brightness mode : Nat) :
    Driver × Wire :=
  _init
    { _i2c_address := address
      _num_displays := numdisplays
      _brightness := brightness
      _mode := mode
      _enabled := 0x00
      _device_info := info0 } w

/-- The two-argument constructor (`I2CMatrix.h`, lines 50-57). -/
def new2 (info0 : Fin 4 → Nat) (w : Wire) (address numdisplays : Nat) : Driver × Wire :=
  _init
    { _i2c_address := address
      _num_displays := numdisplays
      _brightness := 0x01
      _mode := 0x00
      _enabled := 0x00
      _device_info := info0 } w


/-! ## Observing the bus -/

/-- What a call put on the bus: the part of the log after the call that was not there
before it. -/
def emitted (before after : Wire) : List Event :=
  after.trace.drop before.trace.length

/-- A transmission whose command byte (its first byte) is `MODE`. -/
def isModeTx : Event → Bool
  | Event.transmission _ (cmd :: _) _ => cmd == MODE
  | _ => false

/-- Some entry of the list is a transmission with command byte `MODE`. -/
def emitsMode (evs : List Event) : Bool := evs.any isModeTx

/-! ## Sequences of public operations -/

/-- One call of a public member function, with its arguments. -/
inductive Op where
  | writeDisplay (disp : Nat) (content : Nat → Nat)
  | writeColumn (disp colnum content : Nat)
  | writeRow (disp rownum content : Nat)
  | setBrightness (level : Nat)
  | getFWVersion
  | getNumDisplays
  | getEnabled
  | getRCMode

/-- Effect of one call on the driver object and the bus (the value an accessor returns
is not part of the state). -/
def step (op : Op) (sw : Driver × Wire) : Driver × Wire :=
  match op with
  | Op.writeDisplay disp content => writeDisplay sw.1 sw.2 disp content
  | Op.writeColumn disp colnum content => writeColumn sw.1 sw.2 disp colnum content
  | Op.writeRow disp rownum content => writeRow sw.1 sw.2 disp rownum content
  | Op.setBrightness level => setBrightness sw.1 sw.2 level
  | Op.getFWVersion => sw
  | Op.getNumDisplays => sw
  | Op.getEnabled => sw
  | Op.getRCMode => sw

/-- Effect of a sequence of calls, first call first. -/
def run (ops : List Op) (sw : Driver × Wire) : Driver × Wire :=
  ops.foldl (fun acc op => step op acc) sw

/-- Orientation requested by a call if it is a `writeColumn` (`true`) or a `writeRow`
(`false`) targeting display `i`. -/
def orientationFor (i : Nat) : Op → Option Bool
  | Op.writeColumn disp _ _ => if disp = i then some true else none
  | Op.writeRow disp _ _ => if disp = i then some false else none
  | _ => none

/-- Orientation of the most recent `writeColumn`/`writeRow` targeting display `i` in a
sequence of calls (first call first), if there is one. -/
def lastOrientation (i : Nat) (ops : List Op) : Option Bool :=
  ops.foldl (fun acc op => (orientationFor i op).orElse (fun _ => acc)) none

/-- The display index named by a call, if it names one, is in `[0,7]`. -/
def Op.displayInRange : Op → Bool
  | Op.writeDisplay disp _ => decide (disp < 8)
  | Op.writeColumn disp _ _ => decide (disp < 8)
  | Op.writeRow disp _ _ => decide (disp < 8)
  | _ => true

/-! ## Concrete states used to instantiate the theorems -/

/-- A bus that has not been opened, with a slave that will answer `[1, 2, 3, 0]`. -/
def idleWire : Wire :=
  { started := false, txAddress := 0, txBuffer := [], rxBuffer := [],
    slave := [1, 2, 3, 0], trace := [] }

/-- The driver built by `I2CMatrix(0x10, 2)` on `idleWire`. -/
def freshDriver : Driver × Wire := new2 (fun _ => 0) idleWire 0x10 2

/-- The state after `writeColumn(1, 3, 0xAA)` on `freshDriver`. -/
def afterColumn : Driver × Wire := writeColumn freshDriver.1 freshDriver.2 1 3 0xAA

/-- The state after `writeColumn(0, 0, 0x00)` on `freshDriver`: display 0 is cached as
column mode. -/
def afterColumn0 : Driver × Wire := run [Op.writeColumn 0 0 0x00] freshDriver

/-! ## Further observations and call sequences -/

/-- The transmissions of a list whose command byte is `MODE`, in order. -/
def modeTxs (evs : List Event) : List Event := evs.filter isModeTx

/-- A write transmission addressed to `address`. -/
def isTxTo (address : Nat) : Event → Bool
  | Event.transmission a _ _ => a == address
  | _ => false

/-- The data-write of a `writeColumn`/`writeRow` call: the last thing the call puts on
the bus. -/
def dataTx (evs : List Event) : Option Event := evs.getLast?

/-- The driver built by `I2CMatrix(0x10, 2, 0x01, 0x01)` on `idleWire`: display 0 is
cached as column mode from construction on. -/
def columnDriver : Driver × Wire := new4 (fun _ => 0) idleWire 0x10 2 0x01 0x01

/-- The calls `writeColumn(disp, c1, v1)` then `writeRow(disp, c2, v2)`. -/
def columnThenRow (s : Driver) (w : Wire) (disp c1 v1 c2 v2 : Nat) : Driver × Wire :=
  writeRow (writeColumn s w disp c1 v1).1 (writeColumn s w disp c1 v1).2 disp c2 v2

/-- The calls `writeRow(disp, c1, v1)` then `writeColumn(disp, c2, v2)`. -/
def rowThenColumn (s : Driver) (w : Wire) (disp c1 v1 c2 v2 : Nat) : Driver × Wire :=
  writeColumn (writeRow s w disp c1 v1).1 (writeRow s w disp c1 v1).2 disp c2 v2

/-! ## Bit-level facts -/

theorem shl1_eq (d : Nat) (h : d < 15) : shl1 d = 2 ^ d := by
  unfold shl1 INT_BITS
  rw [Nat.one_shiftLeft]
  exact Nat.mod_eq_of_lt (Nat.pow_lt_pow_right (by decide) (show d < 16 by omega))

theorem toBool_and_shl1 (m d : Nat) (h : d < 15) :
    toBool (m &&& shl1 d) = m.testBit d := by
  rw [shl1_eq d h]
  unfold toBool
  cases hb : m.testBit d
  · have : m &&& 2 ^ d = 0 := by
      apply Nat.eq_of_testBit_eq
      intro i
      simp only [Nat.testBit_and, Nat.testBit_two_pow, Nat.zero_testBit]
      by_cases hdi : d = i
      · subst hdi; simp [hb]
      · simp [hdi]
    simp [this]
  · have : m &&& 2 ^ d ≠ 0 := by
      intro h0
      have := congrArg (fun x => Nat.testBit x d) h0
      simp [hb] at this
    simp [this]

theorem testBit_toByte (x i : Nat) (hi : i < 8) : (toByte x).testBit i = x.testBit i := by
  unfold toByte
  have : (256 : Nat) = 2 ^ 8 := by norm_num
  rw [this, Nat.testBit_mod_two_pow]
  simp [hi]

theorem testBit_intNot (x i : Nat) (hi : i < 16) :
    (intNot x).testBit i = !(x.testBit i) := by
  unfold intNot INT_BITS
  have hx : x % 2 ^ 16 < 2 ^ 16 := Nat.mod_lt _ (by norm_num)
  have := Nat.testBit_two_pow_sub_succ hx i
  rw [show 2 ^ 16 - 1 - x % 2 ^ 16 = 2 ^ 16 - (x % 2 ^ 16 + 1) by omega, this]
  rw [Nat.testBit_mod_two_pow]
  simp [hi]

theorem toByte_of_lt (x : Nat) (h : x < 256) : toByte x = x := Nat.mod_eq_of_lt h

theorem toByte_or_shl1 (m d : Nat) (hm : m < 256) (hd : d < 8) :
    toByte (m ||| shl1 d) = m ||| 1 <<< d := by
  rw [shl1_eq d (by omega), Nat.one_shiftLeft]
  apply toByte_of_lt
  have h2 : 2 ^ d < 2 ^ 8 := Nat.pow_lt_pow_right (by decide) hd
  exact Nat.or_lt_two_pow (n := 8) hm h2

theorem toByte_and_intNot_shl1 (m d : Nat) (hm : m < 256) (hd : d < 8) :
    toByte (m &&& intNot (shl1 d)) = m &&& (0xFF ^^^ 1 <<< d) := by
  apply Nat.eq_of_testBit_eq
  intro i
  by_cases hi : i < 8
  · rw [testBit_toByte _ _ hi, Nat.testBit_and, Nat.testBit_and, testBit_intNot _ _ (by omega),
      shl1_eq d (by omega), Nat.one_shiftLeft, Nat.testBit_xor]
    have : Nat.testBit 255 i = true := by
      interval_cases i <;> rfl
    simp [this]
  · have h1 : (toByte (m &&& intNot (shl1 d))).testBit i = false := by
      apply Nat.testBit_lt_two_pow
      calc toByte (m &&& intNot (shl1 d)) < 2 ^ 8 := Nat.mod_lt _ (by norm_num)
        _ ≤ 2 ^ i := Nat.pow_le_pow_right (by decide) (by omega)
    have h2 : m.testBit i = false := by
      apply Nat.testBit_lt_two_pow
      calc m < 2 ^ 8 := hm
        _ ≤ 2 ^ i := Nat.pow_le_pow_right (by decide) (by omega)
    rw [h1, Nat.testBit_and, h2]; simp


/-! ## Traces of the write operations -/

theorem selectAndWrite_trace (s : Driver) (w : Wire) (disp num content : Nat) :
    (selectAndWrite s w disp num content).trace =
      w.trace ++ [Event.transmission s._i2c_address [UNIT, disp] true,
        Event.transmission s._i2c_address [toByte (BYTE1 + num), content] true] := by
  simp [selectAndWrite, Wire.beginTransmission, Wire.writeInt, Wire.write,
    Wire.endTransmission, toByte, UNIT]

theorem writeColumn_of_row (s : Driver) (w : Wire) (disp colnum content : Nat)
    (hd : disp < 15) (hbit : s._mode.testBit disp = false) :
    (writeColumn s w disp colnum content).1 =
        { s with _mode := toByte (s._mode ||| shl1 disp) } ∧
      (writeColumn s w disp colnum content).2.trace =
        w.trace ++ [Event.transmission s._i2c_address
            [ MODE, toByte (s._mode ||| shl1 disp)] true,
          Event.transmission s._i2c_address [UNIT, disp] true,
          Event.transmission s._i2c_address [toByte (BYTE1 + colnum), content] true] := by
  simp [writeColumn, toBool_and_shl1 _ _ hd, hbit, selectAndWrite_trace,
    Wire.beginTransmission, Wire.writeInt, Wire.write, Wire.endTransmission]
  simp [toByte, MODE]

theorem writeColumn_of_column (s : Driver) (w : Wire) (disp colnum content : Nat)
    (hd : disp < 15) (hbit : s._mode.testBit disp = true) :
    (writeColumn s w disp colnum content).1 = s ∧
      (writeColumn s w disp colnum content).2.trace =
        w.trace ++ [Event.transmission s._i2c_address [UNIT, disp] true,
          Event.transmission s._i2c_address [toByte (BYTE1 + colnum), content] true] := by
  simp [writeColumn, toBool_and_shl1 _ _ hd, hbit, selectAndWrite_trace]

theorem writeRow_of_column (s : Driver) (w : Wire) (disp rownum content : Nat)
    (hd : disp < 15) (hbit : s._mode.testBit disp = true) :
    (writeRow s w disp rownum content).1 =
        { s with _mode := toByte (s._mode &&& intNot (shl1 disp)) } ∧
      (writeRow s w disp rownum content).2.trace =
        w.trace ++ [Event.transmission s._i2c_address
            [ MODE, toByte (s._mode &&& intNot (shl1 disp))] true,
          Event.transmission s._i2c_address [UNIT, disp] true,
          Event.transmission s._i2c_address [toByte (BYTE1 + rownum), content] true] := by
  simp [writeRow, toBool_and_shl1 _ _ hd, hbit, selectAndWrite_trace,
    Wire.beginTransmission, Wire.writeInt, Wire.write, Wire.endTransmission]
  simp [toByte, MODE]

theorem writeRow_of_row (s : Driver) (w : Wire) (disp rownum content : Nat)
    (hd : disp < 15) (hbit : s._mode.testBit disp = false) :
    (writeRow s w disp rownum content).1 = s ∧
      (writeRow s w disp rownum content).2.trace =
        w.trace ++ [Event.transmission s._i2c_address [UNIT, disp] true,
          Event.transmission s._i2c_address [toByte (BYTE1 + rownum), content] true] := by
  simp [writeRow, toBool_and_shl1 _ _ hd, hbit, selectAndWrite_trace]

theorem toByte_BYTE1_add (num : Nat) (h : num < 8) : toByte (BYTE1 + num) = 0x06 + num := by
  unfold toByte BYTE1; omega

/-! ## Properties of the operations -/

/-- C1: for every `level` and every driver and bus state, `setBrightness level` puts
exactly one transmission on the bus, addressed to the driver's slave address, with bytes
`[0x03, level & 0x0F]`, and afterwards the stored brightness is `level & 0x0F`. -/
theorem setBrightness_emits_masked (s : Driver) (w : Wire) (level : Nat) :
    (setBrightness s w level).2.trace =
        w.trace ++ [Event.transmission s._i2c_address [0x03, level &&& 0x0F] true] ∧
      (setBrightness s w level).1._brightness = level &&& 0x0F := by
  have hlt : level &&& 0x0F < 256 := lt_of_le_of_lt Nat.and_le_right (by decide)
  simp [setBrightness, Wire.beginTransmission, Wire.writeInt, Wire.write,
    Wire.endTransmission, BRIGHTNESS, toByte_of_lt _ hlt]
  simp [toByte]

/-- C2: for every display index and every content array `c`, `writeDisplay disp c` puts
exactly one transmission on the bus, with bytes
`[0x05, disp, c 7, c 6, c 5, c 4, c 3, c 2, c 1, c 0]`; the `k`-th payload byte
(`k = 0..7`) is `c (7 - k)`. -/
theorem writeDisplay_reversed_single_frame (s : Driver) (w : Wire) (disp : Nat)
    (c : Nat → Nat) :
    (writeDisplay s w disp c).2.trace =
        w.trace ++ [Event.transmission s._i2c_address
          [0x05, disp, c 7, c 6, c 5, c 4, c 3, c 2, c 1, c 0] true] ∧
      [0x05, disp, c 7, c 6, c 5, c 4, c 3, c 2, c 1, c 0] =
        0x05 :: disp :: (List.range 8).map (fun k => c (7 - k)) := by
  constructor
  · simp [writeDisplay, writeDisplayLoop, Wire.beginTransmission, Wire.writeInt, Wire.write,
      Wire.endTransmission, UNIT, toByte]
  · simp [List.range, List.range.loop]

/-- C3: for `disp` and `col` in `[0,7]`, every value and every state whose mode bit
`disp` is 0, `writeColumn disp col value` emits exactly the three transmissions
`[0x04, oldMask | (1 << disp)]`, `[0x05, disp]`, `[0x06 + col, value]` in this order, and
a second `writeColumn` to the same display right after emits exactly the two
transmissions `[0x05, disp]`, `[0x06 + col2, value2]`. -/
theorem writeColumn_from_row_mode (s : Driver) (w : Wire) (disp col value col2 value2 : Nat)
    (hd : disp < 8) (hc : col < 8) (hc2 : col2 < 8) (hm : s._mode < 256)
    (hbit : s._mode.testBit disp = false) :
    (writeColumn s w disp col value).2.trace =
        w.trace ++ [Event.transmission s._i2c_address [0x04, s._mode ||| 1 <<< disp] true,
          Event.transmission s._i2c_address [0x05, disp] true,
          Event.transmission s._i2c_address [0x06 + col, value] true] ∧
      (writeColumn (writeColumn s w disp col value).1 (writeColumn s w disp col value).2
          disp col2 value2).2.trace =
        (writeColumn s w disp col value).2.trace ++
          [Event.transmission s._i2c_address [0x05, disp] true,
           Event.transmission s._i2c_address [0x06 + col2, value2] true] := by
  obtain ⟨h1, h2⟩ := writeColumn_of_row s w disp col value (by omega) hbit
  have hbit2 : (writeColumn s w disp col value).1._mode.testBit disp = true := by
    rw [h1]
    simp [testBit_toByte _ _ hd, shl1_eq disp (by omega), Nat.testBit_two_pow_self]
  obtain ⟨_, h4⟩ := writeColumn_of_column (writeColumn s w disp col value).1
    (writeColumn s w disp col value).2 disp col2 value2 (by omega) hbit2
  refine ⟨?_, ?_⟩
  · rw [h2, toByte_or_shl1 _ _ hm hd, toByte_BYTE1_add _ hc]; rfl
  · rw [h4, toByte_BYTE1_add _ hc2, h1]; rfl


theorem emitted_append (w w2 : Wire) (evs : List Event) (h : w2.trace = w.trace ++ evs) :
    emitted w w2 = evs := by
  simp [emitted, h]

/-- Witness of C3 on the spec scenario: `writeColumn(1, 3, 0xAA)` on a fresh driver
(mode mask 0) emits `[0x04, 0x02]`, `[0x05, 0x01]`, `[0x09, 0xAA]`, and a second column
write to display 1 emits two transmissions. -/
theorem writeColumn_from_row_mode_witness :
    ((1 : Nat) < 8 ∧ (3 : Nat) < 8 ∧ (5 : Nat) < 8 ∧ freshDriver.1._mode < 256 ∧
        freshDriver.1._mode.testBit 1 = false) ∧
      (writeColumn freshDriver.1 freshDriver.2 1 3 0xAA).2.trace =
        freshDriver.2.trace ++ [Event.transmission 0x10 [0x04, 0x02] true,
          Event.transmission 0x10 [0x05, 0x01] true,
          Event.transmission 0x10 [0x09, 0xAA] true] ∧
      (writeColumn (writeColumn freshDriver.1 freshDriver.2 1 3 0xAA).1
          (writeColumn freshDriver.1 freshDriver.2 1 3 0xAA).2 1 5 0x55).2.trace =
        (writeColumn freshDriver.1 freshDriver.2 1 3 0xAA).2.trace ++
          [Event.transmission 0x10 [0x05, 0x01] true,
           Event.transmission 0x10 [0x0B, 0x55] true] :=
  ⟨by decide,
    writeColumn_from_row_mode freshDriver.1 freshDriver.2 1 3 0xAA 5 0x55
      (by decide) (by decide) (by decide) (by decide) (by decide)⟩

/-- C4: for `disp` and `row` in `[0,7]` and every value: if mode bit `disp` is 0,
`writeRow disp row value` emits exactly the two transmissions `[0x05, disp]`,
`[0x06 + row, value]`, none of them a MODE transmission, and leaves the driver state
(the mode bitmask in particular) unchanged; if bit `disp` is 1 it emits
`[0x04, oldMask & ~(1 << disp)]` first and then the same two transmissions. The byte
`oldMask & ~(1 << disp)` is `oldMask` with bit `disp` cleared. -/
theorem writeRow_by_cached_mode (s : Driver) (w : Wire) (disp row value : Nat)
    (hd : disp < 8) (hr : row < 8) (hm : s._mode < 256) :
    (s._mode.testBit disp = false →
        (writeRow s w disp row value).2.trace =
            w.trace ++ [Event.transmission s._i2c_address [0x05, disp] true,
              Event.transmission s._i2c_address [0x06 + row, value] true] ∧
          emitsMode (emitted w (writeRow s w disp row value).2) = false ∧
          (writeRow s w disp row value).1 = s ∧
          (writeRow s w disp row value).1._mode = s._mode) ∧
      (s._mode.testBit disp = true →
        (writeRow s w disp row value).2.trace =
            w.trace ++ [Event.transmission s._i2c_address
                [0x04, s._mode &&& (0xFF ^^^ 1 <<< disp)] true,
              Event.transmission s._i2c_address [0x05, disp] true,
              Event.transmission s._i2c_address [0x06 + row, value] true] ∧
          (writeRow s w disp row value).1._mode = s._mode &&& (0xFF ^^^ 1 <<< disp) ∧
          ∀ i, (s._mode &&& (0xFF ^^^ 1 <<< disp)).testBit i =
            (s._mode.testBit i && !decide (i = disp))) := by
  refine ⟨fun hbit => ?_, fun hbit => ?_⟩
  · obtain ⟨h1, h2⟩ := writeRow_of_row s w disp row value (by omega) hbit
    rw [toByte_BYTE1_add _ hr] at h2
    refine ⟨h2, ?_, h1, by rw [h1]⟩
    rw [emitted_append _ _ _ h2]
    have h6 : 6 + row ≠ 4 := by omega
    simp [emitsMode, isModeTx, UNIT, MODE, h6]
  · obtain ⟨h1, h2⟩ := writeRow_of_column s w disp row value (by omega) hbit
    rw [toByte_BYTE1_add _ hr, toByte_and_intNot_shl1 _ _ hm hd] at h2
    refine ⟨h2, ?_, ?_⟩
    · rw [h1]; exact toByte_and_intNot_shl1 _ _ hm hd
    · intro i
      rw [← toByte_and_intNot_shl1 _ _ hm hd]
      by_cases hi : i < 8
      · rw [testBit_toByte _ _ hi, Nat.testBit_and, testBit_intNot _ _ (by omega),
          shl1_eq _ (by omega), Nat.testBit_two_pow]
        by_cases hid : i = disp
        · simp [hid]
        · have : ¬ disp = i := fun h => hid h.symm
          simp [hid, this]
      · have h1 : (toByte (s._mode &&& intNot (shl1 disp))).testBit i = false := by
          apply Nat.testBit_lt_two_pow
          calc toByte (s._mode &&& intNot (shl1 disp)) < 2 ^ 8 := Nat.mod_lt _ (by norm_num)
            _ ≤ 2 ^ i := Nat.pow_le_pow_right (by decide) (by omega)
        have h2 : s._mode.testBit i = false := by
          apply Nat.testBit_lt_two_pow
          calc s._mode < 2 ^ 8 := hm
            _ ≤ 2 ^ i := Nat.pow_le_pow_right (by decide) (by omega)
        rw [h1, h2]; simp

/-- Witness of C4 on the spec scenario: after `writeColumn(1, 3, 0xAA)` on a fresh
driver, display 0 is still cached as row mode and `writeRow(0, 0, 0x01)` emits only
`[0x05, 0x00]`, `[0x06, 0x01]`. -/
theorem writeRow_by_cached_mode_witness :
    ((0 : Nat) < 8 ∧ afterColumn.1._mode < 256 ∧ afterColumn.1._mode.testBit 0 = false) ∧
      (writeRow afterColumn.1 afterColumn.2 0 0 0x01).2.trace =
        afterColumn.2.trace ++ [Event.transmission 0x10 [0x05, 0x00] true,
          Event.transmission 0x10 [0x06, 0x01] true] ∧
      emitsMode (emitted afterColumn.2 (writeRow afterColumn.1 afterColumn.2 0 0 0x01).2)
        = false :=
  ⟨by decide,
    ((writeRow_by_cached_mode afterColumn.1 afterColumn.2 0 0 0x01
      (by decide) (by decide) (by decide)).1 (by decide)).1,
    ((writeRow_by_cached_mode afterColumn.1 afterColumn.2 0 0 0x01
      (by decide) (by decide) (by decide)).1 (by decide)).2.1⟩


/-! ## Initialisation -/

theorem readDeviceInfo_trace (s : Driver) (w : Wire) :
    (_readDeviceInfo s w).2.trace =
      w.trace ++ [Event.transmission s._i2c_address [GETVERSION] false,
        Event.requestFrom s._i2c_address 4] := by
  simp [_readDeviceInfo, Wire.beginTransmission, Wire.writeInt, Wire.write,
    Wire.endTransmission, Wire.requestFrom, Wire.read, toByte, GETVERSION]
  repeat' split
  all_goals simp

theorem readDeviceInfo_fields (s : Driver) (w : Wire) :
    (_readDeviceInfo s w).1._i2c_address = s._i2c_address ∧
      (_readDeviceInfo s w).1._num_displays = s._num_displays ∧
      (_readDeviceInfo s w).1._brightness = s._brightness ∧
      (_readDeviceInfo s w).1._mode = s._mode ∧
      (_readDeviceInfo s w).1._enabled = s._enabled ∧
      (_readDeviceInfo s w).2.started = w.started := by
  simp [_readDeviceInfo, Wire.beginTransmission, Wire.writeInt, Wire.write,
    Wire.endTransmission, Wire.requestFrom, Wire.read]
  repeat' split
  all_goals simp

theorem readDeviceInfo_info (s : Driver) (w : Wire) (r0 r1 r2 r3 : Nat) (rest : List Nat)
    (h : w.slave = r0 :: r1 :: r2 :: r3 :: rest) :
    (_readDeviceInfo s w).1._device_info 0 = r0 &&& 0x7F ∧
      (_readDeviceInfo s w).1._device_info 1 = r1 &&& 0x7F ∧
      (_readDeviceInfo s w).1._device_info 2 = r2 &&& 0x7F ∧
      (_readDeviceInfo s w).1._device_info 3 = r3 &&& 0x7F := by
  have hb : ∀ r : Nat, toByte (r &&& 0x7F) = r &&& 0x7F := fun r =>
    toByte_of_lt _ (lt_of_le_of_lt Nat.and_le_right (by decide))
  simp [_readDeviceInfo, Wire.beginTransmission, Wire.writeInt, Wire.write,
    Wire.endTransmission, Wire.requestFrom, Wire.read, h, hb, Function.update]

theorem init_trace (s : Driver) (w : Wire) :
    (_init s w).2.trace =
      w.trace ++ [Event.transmission s._i2c_address [RESET, 0x00] true,
        Event.delay 500,
        Event.transmission s._i2c_address
          [CONNECTED, s._num_displays, enabledLoop s._num_displays 0, s._brightness, 0x00]
          true,
        Event.transmission s._i2c_address [GETVERSION] false,
        Event.requestFrom s._i2c_address 4] := by
  unfold _init
  simp only [readDeviceInfo_trace]
  simp [delay, Wire.begin, Wire.beginTransmission, Wire.writeInt, Wire.write,
    Wire.endTransmission, toByte, RESET, CONNECTED]

theorem init_fields (s : Driver) (w : Wire) :
    (_init s w).1._i2c_address = s._i2c_address ∧
      (_init s w).1._num_displays = s._num_displays ∧
      (_init s w).1._brightness = s._brightness ∧
      (_init s w).1._mode = s._mode ∧
      (_init s w).1._enabled = enabledLoop s._num_displays 0 ∧
      (_init s w).2.started = true := by
  unfold _init
  simp only [readDeviceInfo_fields]
  simp [delay, Wire.begin, Wire.beginTransmission, Wire.writeInt, Wire.write,
    Wire.endTransmission]

theorem init_info (s : Driver) (w : Wire) (r0 r1 r2 r3 : Nat) (rest : List Nat)
    (h : w.slave = r0 :: r1 :: r2 :: r3 :: rest) :
    (_init s w).1._device_info 0 = r0 &&& 0x7F ∧
      (_init s w).1._device_info 1 = r1 &&& 0x7F ∧
      (_init s w).1._device_info 2 = r2 &&& 0x7F ∧
      (_init s w).1._device_info 3 = r3 &&& 0x7F := by
  unfold _init
  exact readDeviceInfo_info _ _ r0 r1 r2 r3 rest
    (by simp [delay, Wire.begin, Wire.beginTransmission, Wire.writeInt, Wire.write,
      Wire.endTransmission, h])

theorem enabledLoop_low_bits (N : Nat) (h1 : 1 ≤ N) (h8 : N ≤ 8) :
    enabledLoop N 0 = 1 <<< N - 1 := by
  interval_cases N <;> rfl

/-- C5: for every display count `N` in `[1,8]` the enabled mask computed by the
initialisation loop is `(1 << N) - 1` (its bit `i` is set exactly when `i < N`; it fits a
byte); construction stores this value as the enabled mask and sends it as the third byte
of the configuration transmission. -/
theorem enabled_mask_low_bits (N : Nat) (h1 : 1 ≤ N) (h8 : N ≤ 8) (info0 : Fin 4 → Nat)
    (w : Wire) (address brightness mode : Nat) :
    enabledLoop N 0 = 1 <<< N - 1 ∧
      (∀ i, (enabledLoop N 0).testBit i = decide (i < N)) ∧
      enabledLoop N 0 < 256 ∧
      (new4 info0 w address N brightness mode).1._enabled = 1 <<< N - 1 ∧
      (new2 info0 w address N).1._enabled = 1 <<< N - 1 ∧
      emitted w (new4 info0 w address N brightness mode).2 =
        [Event.transmission address [0x00, 0x00] true,
          Event.delay 500,
          Event.transmission address [0x01, N, 1 <<< N - 1, brightness, 0x00] true,
          Event.transmission address [0x0E] false,
          Event.requestFrom address 4] ∧
      emitted w (new2 info0 w address N).2 =
        [Event.transmission address [0x00, 0x00] true,
          Event.delay 500,
          Event.transmission address [0x01, N, 1 <<< N - 1, 0x01, 0x00] true,
          Event.transmission address [0x0E] false,
          Event.requestFrom address 4] := by
  have hE := enabledLoop_low_bits N h1 h8
  refine ⟨hE, ?_, ?_, ?_, ?_, ?_, ?_⟩
  · intro i
    rw [hE, Nat.one_shiftLeft, Nat.testBit_two_pow_sub_one]
  · rw [hE]; interval_cases N <;> decide
  · rw [← hE]; exact (init_fields _ w).2.2.2.2.1
  · rw [← hE]; exact (init_fields _ w).2.2.2.2.1
  · rw [← hE]; exact emitted_append _ _ _ (init_trace _ w)
  · rw [← hE]; exact emitted_append _ _ _ (init_trace _ w)

/-- Witness of C5 at `N = 8`: the mask is `0xFF`. -/
theorem enabled_mask_low_bits_witness :
    ((1 : Nat) ≤ 8 ∧ (8 : Nat) ≤ 8) ∧ enabledLoop 8 0 = 0xFF ∧
      (new4 (fun _ => 0) idleWire 0x10 8 0x01 0x00).1._enabled = 0xFF :=
  ⟨by decide,
    (enabled_mask_low_bits 8 (by decide) (by decide) (fun _ => 0) idleWire 0x10 0x01 0x00).1,
    (enabled_mask_low_bits 8 (by decide) (by decide) (fun _ => 0) idleWire 0x10 0x01
      0x00).2.2.2.1⟩

/-- C6: if the transport hands over the raw bytes `r0, r1, r2, r3` in this order during
the device-info query, then afterwards `getFWVersion = r0 & 0x7F`,
`getNumDisplays = r1 & 0x7F`, `getEnabled = r2 & 0x7F`, `getRCMode = r3 & 0x7F`, and each
is below 128; the same holds after construction, whose only query this is. -/
theorem device_info_masked (s : Driver) (w : Wire) (r0 r1 r2 r3 : Nat) (rest : List Nat)
    (h : w.slave = r0 :: r1 :: r2 :: r3 :: rest) :
    (getFWVersion (_readDeviceInfo s w).1 = r0 &&& 0x7F ∧
        getNumDisplays (_readDeviceInfo s w).1 = r1 &&& 0x7F ∧
        getEnabled (_readDeviceInfo s w).1 = r2 &&& 0x7F ∧
        getRCMode (_readDeviceInfo s w).1 = r3 &&& 0x7F) ∧
      (getFWVersion (_readDeviceInfo s w).1 < 128 ∧
        getNumDisplays (_readDeviceInfo s w).1 < 128 ∧
        getEnabled (_readDeviceInfo s w).1 < 128 ∧
        getRCMode (_readDeviceInfo s w).1 < 128) ∧
      (getFWVersion (_init s w).1 = r0 &&& 0x7F ∧
        getNumDisplays (_init s w).1 = r1 &&& 0x7F ∧
        getEnabled (_init s w).1 = r2 &&& 0x7F ∧
        getRCMode (_init s w).1 = r3 &&& 0x7F) := by
  have hlt : ∀ r : Nat, r &&& 0x7F < 128 := fun r =>
    lt_of_le_of_lt Nat.and_le_right (by decide)
  obtain ⟨a0, a1, a2, a3⟩ := readDeviceInfo_info s w r0 r1 r2 r3 rest h
  refine ⟨⟨a0, a1, a2, a3⟩, ⟨?_, ?_, ?_, ?_⟩, init_info s w r0 r1 r2 r3 rest h⟩
  · unfold getFWVersion; rw [a0]; exact hlt r0
  · unfold getNumDisplays; rw [a1]; exact hlt r1
  · unfold getEnabled; rw [a2]; exact hlt r2
  · unfold getRCMode; rw [a3]; exact hlt r3

/-- Witness of C6: a slave answering `[0x81, 0x02, 0xFF, 0x80]` is reported as
firmware 1, 2 displays, enabled mask `0x7F`, mode flag 0. -/
theorem device_info_masked_witness :
    ({ idleWire with slave := [0x81, 0x02, 0xFF, 0x80] } : Wire).slave =
        [0x81, 0x02, 0xFF, 0x80] ∧
      getFWVersion (_readDeviceInfo freshDriver.1
        { idleWire with slave := [0x81, 0x02, 0xFF, 0x80] }).1 = 0x01 ∧
      getEnabled (_readDeviceInfo freshDriver.1
        { idleWire with slave := [0x81, 0x02, 0xFF, 0x80] }).1 = 0x7F :=
  ⟨rfl,
    (device_info_masked freshDriver.1 { idleWire with slave := [0x81, 0x02, 0xFF, 0x80] }
      0x81 0x02 0xFF 0x80 [] rfl).1.1,
    (device_info_masked freshDriver.1 { idleWire with slave := [0x81, 0x02, 0xFF, 0x80] }
      0x81 0x02 0xFF 0x80 [] rfl).1.2.2.1⟩

/-- C7: for every slave address, display count `N` and initial brightness `b`,
construction opens the bus and emits exactly: the transmission `[0x00, 0x00]`; a 500-unit
delay; the single configuration transmission `[0x01, N, enabledMask, b, 0x00]`, where
`enabledMask` is the stored enabled mask; the transmission `[0x0E]` ended without a stop;
a read request for 4 bytes from the same address. The two-argument constructor does so
with `b = 0x01`; for address `0x10` and count 2 the configuration transmission is
`[0x01, 0x02, 0x03, 0x01, 0x00]`. -/
theorem construction_bus_sequence (info0 : Fin 4 → Nat) (w : Wire)
    (address N b mode : Nat) :
    (new4 info0 w address N b mode).2.trace =
        w.trace ++ [Event.transmission address [0x00, 0x00] true,
          Event.delay 500,
          Event.transmission address
            [0x01, N, (new4 info0 w address N b mode).1._enabled, b, 0x00] true,
          Event.transmission address [0x0E] false,
          Event.requestFrom address 4] ∧
      (new2 info0 w address N).2.trace =
        w.trace ++ [Event.transmission address [0x00, 0x00] true,
          Event.delay 500,
          Event.transmission address
            [0x01, N, (new2 info0 w address N).1._enabled, 0x01, 0x00] true,
          Event.transmission address [0x0E] false,
          Event.requestFrom address 4] ∧
      (new4 info0 w address N b mode).2.started = true ∧
      (new2 info0 w address N).2.started = true ∧
      (new2 info0 idleWire 0x10 2).2.trace =
        [Event.transmission 0x10 [0x00, 0x00] true,
          Event.delay 500,
          Event.transmission 0x10 [0x01, 0x02, 0x03, 0x01, 0x00] true,
          Event.transmission 0x10 [0x0E] false,
          Event.requestFrom 0x10 4] := by
  refine ⟨?_, ?_, (init_fields _ w).2.2.2.2.2, (init_fields _ w).2.2.2.2.2, ?_⟩
  · unfold new4
    rw [(init_fields _ w).2.2.2.2.1]
    exact init_trace _ w
  · unfold new2
    rw [(init_fields _ w).2.2.2.2.1]
    exact init_trace _ w
  · unfold new2
    rw [init_trace]
    rfl

/-- C8 (evaluation of the code at the failing input): `I2CMatrix(0x10, 2, 0xFF, 0x00)`
stores brightness `0xFF` and sends `0xFF` as the brightness byte of the configuration
transmission, which is not `<= 0x0F`. -/
theorem constructor_brightness_unmasked :
    (new4 (fun _ => 0) idleWire 0x10 2 0xFF 0x00).1._brightness = 0xFF ∧
      emitted idleWire (new4 (fun _ => 0) idleWire 0x10 2 0xFF 0x00).2 =
        [Event.transmission 0x10 [0x00, 0x00] true,
          Event.delay 500,
          Event.transmission 0x10 [0x01, 0x02, 0x03, 0xFF, 0x00] true,
          Event.transmission 0x10 [0x0E] false,
          Event.requestFrom 0x10 4] ∧
      ¬ ((0xFF : Nat) ≤ 0x0F) := by
  decide

/-- C10: for every initial mode `m` given to the four-argument constructor, after
construction the cached mode bitmask is `m`, the mode byte (last byte) of the
configuration transmission is `0x00`, and no transmission emitted during construction
has command byte MODE. -/
theorem constructor_mode_cached_not_sent (info0 : Fin 4 → Nat) (w : Wire)
    (address N b m : Nat) :
    (new4 info0 w address N b m).1._mode = m ∧
      emitted w (new4 info0 w address N b m).2 =
        [Event.transmission address [0x00, 0x00] true,
          Event.delay 500,
          Event.transmission address [0x01, N, enabledLoop N 0, b, 0x00] true,
          Event.transmission address [0x0E] false,
          Event.requestFrom address 4] ∧
      emitsMode (emitted w (new4 info0 w address N b m).2) = false := by
  have ht : emitted w (new4 info0 w address N b m).2 =
      [Event.transmission address [0x00, 0x00] true,
        Event.delay 500,
        Event.transmission address [0x01, N, enabledLoop N 0, b, 0x00] true,
        Event.transmission address [0x0E] false,
        Event.requestFrom address 4] := emitted_append _ _ _ (init_trace _ w)
  refine ⟨(init_fields _ w).2.2.2.1, ht, ?_⟩
  rw [ht]
  simp [emitsMode, isModeTx, MODE]


/-! ## The mode cache along sequences of calls -/

theorem testBit_shl1 (d i : Nat) (hd : d < 15) : (shl1 d).testBit i = decide (d = i) := by
  rw [shl1_eq d hd, Nat.testBit_two_pow]

theorem writeColumn_mode_testBit (s : Driver) (w : Wire) (disp colnum content i : Nat)
    (hi : i < 8) (hd : disp < 8) :
    (writeColumn s w disp colnum content).1._mode.testBit i =
      if disp = i then true else s._mode.testBit i := by
  by_cases hdi : disp = i
  · subst hdi
    cases hb : s._mode.testBit disp
    · rw [(writeColumn_of_row s w disp colnum content (by omega) hb).1]
      simp [testBit_toByte _ _ hi, testBit_shl1 disp disp (by omega)]
    · rw [(writeColumn_of_column s w disp colnum content (by omega) hb).1]
      simp [hb]
  · rw [if_neg hdi]
    simp only [writeColumn]
    split
    · simp [testBit_toByte _ _ hi, testBit_shl1 disp i (by omega), hdi]
    · simp [hdi]

theorem writeRow_mode_testBit (s : Driver) (w : Wire) (disp rownum content i : Nat)
    (hi : i < 8) (hd : disp < 8) :
    (writeRow s w disp rownum content).1._mode.testBit i =
      if disp = i then false else s._mode.testBit i := by
  by_cases hdi : disp = i
  · subst hdi
    cases hb : s._mode.testBit disp
    · rw [(writeRow_of_row s w disp rownum content (by omega) hb).1]
      simp [hb]
    · rw [(writeRow_of_column s w disp rownum content (by omega) hb).1]
      simp [testBit_toByte _ _ hi, testBit_intNot _ _ (show disp < 16 by omega),
        testBit_shl1 disp disp (by omega)]
  · rw [if_neg hdi]
    simp only [writeRow]
    split
    · simp [testBit_toByte _ _ hi, testBit_intNot _ _ (show i < 16 by omega),
        testBit_shl1 disp i (by omega), hdi]
    · simp [hdi]

theorem step_mode_testBit (op : Op) (sw : Driver × Wire) (i : Nat) (hi : i < 8)
    (hop : op.displayInRange = true) :
    (step op sw).1._mode.testBit i =
      ((orientationFor i op).orElse (fun _ => some (sw.1._mode.testBit i))).getD false := by
  cases op with
  | writeDisplay disp content => simp [step, writeDisplay, orientationFor]
  | writeColumn disp colnum content =>
    have hd : disp < 8 := by simpa [Op.displayInRange] using hop
    simp only [step, orientationFor, writeColumn_mode_testBit _ _ _ _ _ _ hi hd]
    split <;> simp
  | writeRow disp rownum content =>
    have hd : disp < 8 := by simpa [Op.displayInRange] using hop
    simp only [step, orientationFor, writeRow_mode_testBit _ _ _ _ _ _ hi hd]
    split <;> simp
  | setBrightness level => simp [step, setBrightness, orientationFor]
  | getFWVersion => simp [step, orientationFor]
  | getNumDisplays => simp [step, orientationFor]
  | getEnabled => simp [step, orientationFor]
  | getRCMode => simp [step, orientationFor]

theorem run_mode_testBit_aux (i : Nat) (hi : i < 8) (b0 : Bool) (ops : List Op)
    (hops : ops.all Op.displayInRange = true) :
    ∀ (sw : Driver × Wire) (acc : Option Bool),
      sw.1._mode.testBit i = acc.getD b0 →
      (ops.foldl (fun a op => step op a) sw).1._mode.testBit i =
        (ops.foldl (fun a op => (orientationFor i op).orElse (fun _ => a)) acc).getD b0 := by
  induction ops with
  | nil => intro sw acc h; simpa using h
  | cons op rest ih =>
    intro sw acc h
    simp only [List.all_cons, Bool.and_eq_true] at hops
    simp only [List.foldl_cons]
    apply ih hops.2
    rw [step_mode_testBit op sw i hi hops.1, h]
    cases orientationFor i op <;> cases acc <;> simp

theorem run_mode_testBit (ops : List Op) (sw : Driver × Wire) (i : Nat) (hi : i < 8)
    (hops : ops.all Op.displayInRange = true) :
    (run ops sw).1._mode.testBit i =
      (lastOrientation i ops).getD (sw.1._mode.testBit i) := by
  unfold run lastOrientation
  exact run_mode_testBit_aux i hi _ ops hops sw none (by simp)

theorem emitsMode_select_and_data (address disp cmd content : Nat) (hc : cmd ≠ MODE) :
    emitsMode [Event.transmission address [UNIT, disp] true,
      Event.transmission address [cmd, content] true] = false := by
  simp [emitsMode, isModeTx, UNIT, MODE, hc]
  simpa [ MODE] using hc

theorem toByte_BYTE1_add_ne_MODE (num : Nat) (h : num < 256) (h254 : num ≠ 254) :
    toByte (BYTE1 + num) ≠ MODE := by
  unfold toByte BYTE1 MODE; omega


theorem writeColumn_emitted (s : Driver) (w : Wire) (disp num content : Nat)
    (hd : disp < 8) :
    emitted w (writeColumn s w disp num content).2 =
      (if s._mode.testBit disp = false then
          [Event.transmission s._i2c_address
            [ MODE, (writeColumn s w disp num content).1._mode] true]
        else []) ++
        [Event.transmission s._i2c_address [UNIT, disp] true,
          Event.transmission s._i2c_address [toByte (BYTE1 + num), content] true] := by
  cases hb : s._mode.testBit disp
  · obtain ⟨h1, h2⟩ := writeColumn_of_row s w disp num content (by omega) hb
    rw [emitted_append _ _ _ h2, h1]; rfl
  · obtain ⟨_, h2⟩ := writeColumn_of_column s w disp num content (by omega) hb
    rw [emitted_append _ _ _ h2]; rfl

theorem writeRow_emitted (s : Driver) (w : Wire) (disp num content : Nat)
    (hd : disp < 8) :
    emitted w (writeRow s w disp num content).2 =
      (if s._mode.testBit disp = true then
          [Event.transmission s._i2c_address
            [ MODE, (writeRow s w disp num content).1._mode] true]
        else []) ++
        [Event.transmission s._i2c_address [UNIT, disp] true,
          Event.transmission s._i2c_address [toByte (BYTE1 + num), content] true] := by
  cases hb : s._mode.testBit disp
  · obtain ⟨_, h2⟩ := writeRow_of_row s w disp num content (by omega) hb
    rw [emitted_append _ _ _ h2]; rfl
  · obtain ⟨h1, h2⟩ := writeRow_of_column s w disp num content (by omega) hb
    rw [emitted_append _ _ _ h2, h1]; rfl

theorem emitsMode_cons_mode (address payload : Nat) (rest : List Event) :
    emitsMode (Event.transmission address [ MODE, payload] true :: rest) = true := by
  simp [emitsMode, isModeTx]

/-- C9 (as stated, refuted): on a fresh driver, after `writeColumn(0, 0, 0x00)` display 0
is cached as column mode; `writeColumn(0, 254, 0x00)` then requests the cached
orientation, yet it emits `[0x05, 0x00]`, `[0x04, 0x00]`: the data transmission has
command byte `(0x06 + 254) mod 256 = 0x04`, the MODE code. -/
theorem mode_command_without_orientation_change :
    afterColumn0.1._mode.testBit 0 = true ∧
      emitted afterColumn0.2 (step (Op.writeColumn 0 254 0x00) afterColumn0).2 =
        [Event.transmission 0x10 [0x05, 0x00] true,
          Event.transmission 0x10 [0x04, 0x00] true] ∧
      ¬ (emitsMode (emitted afterColumn0.2
            (step (Op.writeColumn 0 254 0x00) afterColumn0).2) = true ↔
          afterColumn0.1._mode.testBit 0 = false) := by
  decide

/-- C9 (amended): for every sequence of public operations whose display indices are all
in `[0,7]` and every display `i` in `[0,7]`, after the sequence mode bit `i` is 1 if the
most recent `writeColumn`/`writeRow` targeting display `i` was a `writeColumn`, 0 if it
was a `writeRow`, and its initial value if there was none. At every state reached by
such a sequence, a `writeColumn` or `writeRow` to a display in `[0,7]` emits the two
transmissions unit-select and data-write, preceded by one transmission
`[MODE, new mask]` exactly when the requested orientation differs from the cached bit;
and when the row/column index is a byte other than 254, some emitted transmission has
command byte MODE if and only if the requested orientation differs from the cached
bit. -/
theorem mode_cache_tracks_last_write (sw : Driver × Wire) :
    (∀ (ops : List Op) (i : Nat), ops.all Op.displayInRange = true → i < 8 →
        (run ops sw).1._mode.testBit i =
          (lastOrientation i ops).getD (sw.1._mode.testBit i)) ∧
      (∀ (pre : List Op) (disp num content : Nat),
        pre.all Op.displayInRange = true → disp < 8 →
        emitted (run pre sw).2 (step (Op.writeColumn disp num content) (run pre sw)).2 =
            (if (run pre sw).1._mode.testBit disp = false then
                [Event.transmission (run pre sw).1._i2c_address
                  [ MODE, (step (Op.writeColumn disp num content) (run pre sw)).1._mode]
                  true]
              else []) ++
              [Event.transmission (run pre sw).1._i2c_address [UNIT, disp] true,
                Event.transmission (run pre sw).1._i2c_address
                  [toByte (BYTE1 + num), content] true] ∧
          emitted (run pre sw).2 (step (Op.writeRow disp num content) (run pre sw)).2 =
            (if (run pre sw).1._mode.testBit disp = true then
                [Event.transmission (run pre sw).1._i2c_address
                  [ MODE, (step (Op.writeRow disp num content) (run pre sw)).1._mode]
                  true]
              else []) ++
              [Event.transmission (run pre sw).1._i2c_address [UNIT, disp] true,
                Event.transmission (run pre sw).1._i2c_address
                  [toByte (BYTE1 + num), content] true]) ∧
      (∀ (pre : List Op) (disp num content : Nat),
        pre.all Op.displayInRange = true → disp < 8 → num < 256 → num ≠ 254 →
        (emitsMode (emitted (run pre sw).2
              (step (Op.writeColumn disp num content) (run pre sw)).2) = true ↔
            (run pre sw).1._mode.testBit disp = false) ∧
          (emitsMode (emitted (run pre sw).2
              (step (Op.writeRow disp num content) (run pre sw)).2) = true ↔
            (run pre sw).1._mode.testBit disp = true)) := by
  refine ⟨fun ops i hops hi => run_mode_testBit ops sw i hi hops, ?_, ?_⟩
  · intro pre disp num content _ hd
    exact ⟨writeColumn_emitted _ _ disp num content hd,
      writeRow_emitted _ _ disp num content hd⟩
  · intro pre disp num content _ hd hn h254
    have hne := toByte_BYTE1_add_ne_MODE num hn h254
    simp only [step]
    rw [writeColumn_emitted _ _ disp num content hd,
      writeRow_emitted _ _ disp num content hd]
    cases hb : (run pre sw).1._mode.testBit disp
    · simp [emitsMode_cons_mode, emitsMode_select_and_data _ _ _ _ hne]
    · simp [emitsMode_cons_mode, emitsMode_select_and_data _ _ _ _ hne]

/-- Witness of C9 (amended) on the sequence `writeColumn(1, 3, 0xAA)`,
`setBrightness(5)`, `writeRow(0, 0, 0x01)`, `writeRow(1, 9, 0x00)`, `writeColumn(2, 7,
0xFF)` from a fresh driver, whose display indices are 1, 0, 1, 2: afterwards bit 1 is 0
(last write to display 1 was a row write), bit 2 is 1, bit 5 keeps its initial value 0;
and a further `writeRow(2, 4, 0x11)` emits a MODE transmission exactly because bit 2 is
set. -/
theorem mode_cache_tracks_last_write_witness :
    ([Op.writeColumn 1 3 0xAA, Op.setBrightness 5, Op.writeRow 0 0 0x01,
          Op.writeRow 1 9 0x00, Op.writeColumn 2 7 0xFF].all Op.displayInRange = true ∧
        (1 : Nat) < 8 ∧ (2 : Nat) < 8 ∧ (5 : Nat) < 8 ∧ (4 : Nat) < 256 ∧
        (4 : Nat) ≠ 254) ∧
      (run [Op.writeColumn 1 3 0xAA, Op.setBrightness 5, Op.writeRow 0 0 0x01,
          Op.writeRow 1 9 0x00, Op.writeColumn 2 7 0xFF] freshDriver).1._mode.testBit 1 =
        false ∧
      (run [Op.writeColumn 1 3 0xAA, Op.setBrightness 5, Op.writeRow 0 0 0x01,
          Op.writeRow 1 9 0x00, Op.writeColumn 2 7 0xFF] freshDriver).1._mode.testBit 2 =
        true ∧
      (run [Op.writeColumn 1 3 0xAA, Op.setBrightness 5, Op.writeRow 0 0 0x01,
          Op.writeRow 1 9 0x00, Op.writeColumn 2 7 0xFF] freshDriver).1._mode.testBit 5 =
        freshDriver.1._mode.testBit 5 ∧
      (emitsMode (emitted
            (run [Op.writeColumn 1 3 0xAA, Op.setBrightness 5, Op.writeRow 0 0 0x01,
              Op.writeRow 1 9 0x00, Op.writeColumn 2 7 0xFF] freshDriver).2
            (step (Op.writeRow 2 4 0x11)
              (run [Op.writeColumn 1 3 0xAA, Op.setBrightness 5, Op.writeRow 0 0 0x01,
                Op.writeRow 1 9 0x00, Op.writeColumn 2 7 0xFF] freshDriver)).2) = true ↔
          (run [Op.writeColumn 1 3 0xAA, Op.setBrightness 5, Op.writeRow 0 0 0x01,
            Op.writeRow 1 9 0x00, Op.writeColumn 2 7 0xFF] freshDriver).1._mode.testBit 2 =
            true) :=
  ⟨by decide,
    (mode_cache_tracks_last_write freshDriver).1 _ 1 (by decide) (by decide),
    (mode_cache_tracks_last_write freshDriver).1 _ 2 (by decide) (by decide),
    (mode_cache_tracks_last_write freshDriver).1 _ 5 (by decide) (by decide),
    ((mode_cache_tracks_last_write freshDriver).2.2 _ 2 4 0x11
      (by decide) (by decide) (by decide) (by decide)).2⟩


/-! ## The write operations for arbitrary arguments -/

theorem writeColumn_any (s : Driver) (w : Wire) (disp num content : Nat) :
    (writeColumn s w disp num content).1 =
        (if toBool (s._mode &&& shl1 disp) then s
          else { s with _mode := toByte (s._mode ||| shl1 disp) }) ∧
      (writeColumn s w disp num content).2.trace =
        w.trace ++ ((if toBool (s._mode &&& shl1 disp) then []
            else [Event.transmission s._i2c_address
              [ MODE, toByte (s._mode ||| shl1 disp)] true]) ++
          [Event.transmission s._i2c_address [UNIT, disp] true,
            Event.transmission s._i2c_address [toByte (BYTE1 + num), content] true]) := by
  cases h : toBool (s._mode &&& shl1 disp)
  · simp [writeColumn, h, selectAndWrite_trace, Wire.beginTransmission, Wire.writeInt,
      Wire.write, Wire.endTransmission]
    simp [toByte, MODE]
  · simp [writeColumn, h, selectAndWrite_trace]

theorem writeRow_any (s : Driver) (w : Wire) (disp num content : Nat) :
    (writeRow s w disp num content).1 =
        (if toBool (s._mode &&& shl1 disp) then
            { s with _mode := toByte (s._mode &&& intNot (shl1 disp)) }
          else s) ∧
      (writeRow s w disp num content).2.trace =
        w.trace ++ ((if toBool (s._mode &&& shl1 disp) then
              [Event.transmission s._i2c_address
                [ MODE, toByte (s._mode &&& intNot (shl1 disp))] true]
            else []) ++
          [Event.transmission s._i2c_address [UNIT, disp] true,
            Event.transmission s._i2c_address [toByte (BYTE1 + num), content] true]) := by
  cases h : toBool (s._mode &&& shl1 disp)
  · simp [writeRow, h, selectAndWrite_trace]
  · simp [writeRow, h, selectAndWrite_trace, Wire.beginTransmission, Wire.writeInt,
      Wire.write, Wire.endTransmission]
    simp [toByte, MODE]

theorem writeColumn_dataTx (s : Driver) (w : Wire) (disp num content : Nat) :
    dataTx (emitted w (writeColumn s w disp num content).2) =
      some (Event.transmission s._i2c_address [toByte (BYTE1 + num), content] true) := by
  rw [emitted_append _ _ _ (writeColumn_any s w disp num content).2]
  unfold dataTx
  split <;> simp

theorem writeRow_dataTx (s : Driver) (w : Wire) (disp num content : Nat) :
    dataTx (emitted w (writeRow s w disp num content).2) =
      some (Event.transmission s._i2c_address [toByte (BYTE1 + num), content] true) := by
  rw [emitted_append _ _ _ (writeRow_any s w disp num content).2]
  unfold dataTx
  split <;> simp

theorem writeDisplay_trace (s : Driver) (w : Wire) (disp : Nat) (c : Nat → Nat) :
    (writeDisplay s w disp c).2.trace =
      w.trace ++ [Event.transmission s._i2c_address
        [UNIT, disp, c 7, c 6, c 5, c 4, c 3, c 2, c 1, c 0] true] := by
  simp [writeDisplay, writeDisplayLoop, Wire.beginTransmission, Wire.writeInt, Wire.write,
    Wire.endTransmission, UNIT, toByte]

theorem setBrightness_trace (s : Driver) (w : Wire) (level : Nat) :
    (setBrightness s w level).2.trace =
      w.trace ++ [Event.transmission s._i2c_address
        [BRIGHTNESS, toByte (level &&& 0x0F)] true] := by
  simp [setBrightness, Wire.beginTransmission, Wire.writeInt, Wire.write,
    Wire.endTransmission, BRIGHTNESS, toByte]

/-- C11: for every row/column index `idx` in `[0,7]`, the data-write emitted by
`writeColumn` and by `writeRow` has command byte `0x06 + idx`, which lies in
`0x06..0x0D` and is one of `BYTE1..BYTE8`; it is none of RESET, CONNECTED, ENABLE,
BRIGHTNESS, MODE, UNIT, GETVERSION; the map from index to command byte is injective on
`[0,7]`; the payload is the value byte unchanged. -/
theorem data_command_in_range (s : Driver) (w : Wire) (disp idx value : Nat)
    (h : idx < 8) :
    dataTx (emitted w (writeColumn s w disp idx value).2) =
        some (Event.transmission s._i2c_address [0x06 + idx, value] true) ∧
      dataTx (emitted w (writeRow s w disp idx value).2) =
        some (Event.transmission s._i2c_address [0x06 + idx, value] true) ∧
      (0x06 ≤ 0x06 + idx ∧ 0x06 + idx ≤ 0x0D) ∧
      0x06 + idx ∈ [BYTE1, BYTE2, BYTE3, BYTE4, BYTE5, BYTE6, BYTE7, BYTE8] ∧
      0x06 + idx ∉ [RESET, CONNECTED, ENABLE, BRIGHTNESS, MODE, UNIT, GETVERSION] ∧
      (∀ idx2, idx2 < 8 → toByte (BYTE1 + idx) = toByte (BYTE1 + idx2) → idx = idx2) := by
  refine ⟨?_, ?_, ⟨by omega, by omega⟩, ?_, ?_, ?_⟩
  · rw [writeColumn_dataTx, toByte_BYTE1_add _ h]
  · rw [writeRow_dataTx, toByte_BYTE1_add _ h]
  · interval_cases idx <;> decide
  · interval_cases idx <;> decide
  · intro idx2 h2 he
    rw [toByte_BYTE1_add _ h, toByte_BYTE1_add _ h2] at he
    omega

/-- Witness of C11 at index 7: the command byte is `0x0D` (BYTE8). -/
theorem data_command_in_range_witness :
    (7 : Nat) < 8 ∧
      dataTx (emitted freshDriver.2 (writeColumn freshDriver.1 freshDriver.2 1 7 0xAA).2) =
        some (Event.transmission 0x10 [0x0D, 0xAA] true) ∧
      dataTx (emitted freshDriver.2 (writeRow freshDriver.1 freshDriver.2 1 7 0xAA).2) =
        some (Event.transmission 0x10 [0x0D, 0xAA] true) :=
  ⟨by decide,
    (data_command_in_range freshDriver.1 freshDriver.2 1 7 0xAA (by decide)).1,
    (data_command_in_range freshDriver.1 freshDriver.2 1 7 0xAA (by decide)).2.1⟩

/-- C17: the row/column index is not validated: for every index the data-write of
`writeColumn` and of `writeRow` has command byte `(0x06 + index) mod 256`; for index 8
this is `0x0E`, the GETVERSION code, and for index 250 it is `0x00`, the RESET code. -/
theorem data_command_wraps (s : Driver) (w : Wire) (disp idx value : Nat) :
    dataTx (emitted w (writeColumn s w disp idx value).2) =
        some (Event.transmission s._i2c_address [(0x06 + idx) % 256, value] true) ∧
      dataTx (emitted w (writeRow s w disp idx value).2) =
        some (Event.transmission s._i2c_address [(0x06 + idx) % 256, value] true) ∧
      dataTx (emitted w (writeColumn s w disp 8 value).2) =
        some (Event.transmission s._i2c_address [GETVERSION, value] true) ∧
      dataTx (emitted w (writeRow s w disp 8 value).2) =
        some (Event.transmission s._i2c_address [GETVERSION, value] true) ∧
      dataTx (emitted w (writeColumn s w disp 250 value).2) =
        some (Event.transmission s._i2c_address [RESET, value] true) ∧
      dataTx (emitted w (writeRow s w disp 250 value).2) =
        some (Event.transmission s._i2c_address [RESET, value] true) ∧
      GETVERSION = 0x0E ∧ RESET = 0x00 := by
  refine ⟨?_, ?_, ?_, ?_, ?_, ?_, rfl, rfl⟩
  · rw [writeColumn_dataTx]; rfl
  · rw [writeRow_dataTx]; rfl
  · rw [writeColumn_dataTx]; rfl
  · rw [writeRow_dataTx]; rfl
  · rw [writeColumn_dataTx]; rfl
  · rw [writeRow_dataTx]; rfl

/-- C14: `writeDisplay` leaves the driver object unchanged, in particular the mode
bitmask and the stored brightness; what it emits contains no transmission with command
byte MODE and does not depend on the cached mode bitmask. -/
theorem writeDisplay_ignores_mode (s : Driver) (w : Wire) (disp : Nat) (c : Nat → Nat)
    (m : Nat) :
    (writeDisplay s w disp c).1 = s ∧
      (writeDisplay s w disp c).1._mode = s._mode ∧
      (writeDisplay s w disp c).1._brightness = s._brightness ∧
      emitsMode (emitted w (writeDisplay s w disp c).2) = false ∧
      emitted w (writeDisplay { s with _mode := m } w disp c).2 =
        emitted w (writeDisplay s w disp c).2 := by
  refine ⟨rfl, rfl, rfl, ?_, ?_⟩
  · rw [emitted_append _ _ _ (writeDisplay_trace s w disp c)]
    simp [emitsMode, isModeTx, UNIT, MODE]
  · rw [emitted_append _ _ _ (writeDisplay_trace s w disp c),
      emitted_append _ _ _ (writeDisplay_trace _ w disp c)]

/-! ## What the public operations leave alone -/

theorem step_frame (op : Op) (sw : Driver × Wire) :
    (step op sw).1._i2c_address = sw.1._i2c_address ∧
      (step op sw).1._num_displays = sw.1._num_displays ∧
      (step op sw).1._enabled = sw.1._enabled ∧
      (step op sw).1._device_info = sw.1._device_info := by
  cases op with
  | writeDisplay disp content => exact ⟨rfl, rfl, rfl, rfl⟩
  | writeColumn disp colnum content =>
    simp only [step, (writeColumn_any sw.1 sw.2 disp colnum content).1]
    split <;> exact ⟨rfl, rfl, rfl, rfl⟩
  | writeRow disp rownum content =>
    simp only [step, (writeRow_any sw.1 sw.2 disp rownum content).1]
    split <;> exact ⟨rfl, rfl, rfl, rfl⟩
  | setBrightness level => exact ⟨rfl, rfl, rfl, rfl⟩
  | getFWVersion => exact ⟨rfl, rfl, rfl, rfl⟩
  | getNumDisplays => exact ⟨rfl, rfl, rfl, rfl⟩
  | getEnabled => exact ⟨rfl, rfl, rfl, rfl⟩
  | getRCMode => exact ⟨rfl, rfl, rfl, rfl⟩

theorem step_trace (op : Op) (sw : Driver × Wire) :
    ∃ evs, (step op sw).2.trace = sw.2.trace ++ evs ∧
      evs.all (isTxTo sw.1._i2c_address) = true := by
  cases op with
  | writeDisplay disp content =>
    exact ⟨_, writeDisplay_trace sw.1 sw.2 disp content, by simp [isTxTo]⟩
  | writeColumn disp colnum content =>
    refine ⟨_, (writeColumn_any sw.1 sw.2 disp colnum content).2, ?_⟩
    split <;> simp [isTxTo]
  | writeRow disp rownum content =>
    refine ⟨_, (writeRow_any sw.1 sw.2 disp rownum content).2, ?_⟩
    split <;> simp [isTxTo]
  | setBrightness level =>
    exact ⟨_, setBrightness_trace sw.1 sw.2 level, by simp [isTxTo]⟩
  | getFWVersion => exact ⟨[], by simp [step], by simp⟩
  | getNumDisplays => exact ⟨[], by simp [step], by simp⟩
  | getEnabled => exact ⟨[], by simp [step], by simp⟩
  | getRCMode => exact ⟨[], by simp [step], by simp⟩

theorem run_frame (ops : List Op) :
    ∀ sw : Driver × Wire,
      ((run ops sw).1._i2c_address = sw.1._i2c_address ∧
        (run ops sw).1._num_displays = sw.1._num_displays ∧
        (run ops sw).1._enabled = sw.1._enabled ∧
        (run ops sw).1._device_info = sw.1._device_info) ∧
      ∃ evs, (run ops sw).2.trace = sw.2.trace ++ evs ∧
        evs.all (isTxTo sw.1._i2c_address) = true := by
  induction ops with
  | nil => intro sw; exact ⟨⟨rfl, rfl, rfl, rfl⟩, [], by simp [run], by simp⟩
  | cons op rest ih =>
    intro sw
    obtain ⟨⟨f1, f2, f3, f4⟩, evs2, t2, a2⟩ := ih (step op sw)
    obtain ⟨g1, g2, g3, g4⟩ := step_frame op sw
    obtain ⟨evs1, t1, a1⟩ := step_trace op sw
    have hrun : run (op :: rest) sw = run rest (step op sw) := by simp [run]
    rw [hrun]
    refine ⟨⟨f1.trans g1, f2.trans g2, f3.trans g3, f4.trans g4⟩, evs1 ++ evs2, ?_, ?_⟩
    · rw [t2, t1, List.append_assoc]
    · rw [g1] at a2
      simp [List.all_append, a1, a2]

/-- C12: no public operation changes the slave address, the display count, the enabled
mask or the device-info snapshot, for one call and for any sequence of calls from any
state; every entry a call or a sequence of calls puts on the bus is a transmission
addressed to the slave address of the driver; the four accessors leave driver and bus as
they are and emit nothing; hence the accessor results after any sequence of calls are
those before it. -/
theorem public_ops_frame (op : Op) (ops : List Op) (sw : Driver × Wire) :
    ((step op sw).1._i2c_address = sw.1._i2c_address ∧
        (step op sw).1._num_displays = sw.1._num_displays ∧
        (step op sw).1._enabled = sw.1._enabled ∧
        (step op sw).1._device_info = sw.1._device_info) ∧
      (emitted sw.2 (step op sw).2).all (isTxTo sw.1._i2c_address) = true ∧
      (step Op.getFWVersion sw = sw ∧ step Op.getNumDisplays sw = sw ∧
        step Op.getEnabled sw = sw ∧ step Op.getRCMode sw = sw) ∧
      (emitted sw.2 (step Op.getFWVersion sw).2 = [] ∧
        emitted sw.2 (step Op.getNumDisplays sw).2 = [] ∧
        emitted sw.2 (step Op.getEnabled sw).2 = [] ∧
        emitted sw.2 (step Op.getRCMode sw).2 = []) ∧
      ((run ops sw).1._i2c_address = sw.1._i2c_address ∧
        (run ops sw).1._num_displays = sw.1._num_displays ∧
        (run ops sw).1._enabled = sw.1._enabled ∧
        (run ops sw).1._device_info = sw.1._device_info) ∧
      (emitted sw.2 (run ops sw).2).all (isTxTo sw.1._i2c_address) = true ∧
      (getFWVersion (run ops sw).1 = getFWVersion sw.1 ∧
        getNumDisplays (run ops sw).1 = getNumDisplays sw.1 ∧
        getEnabled (run ops sw).1 = getEnabled sw.1 ∧
        getRCMode (run ops sw).1 = getRCMode sw.1) := by
  obtain ⟨evs1, t1, a1⟩ := step_trace op sw
  obtain ⟨hf, evs, t, a⟩ := run_frame ops sw
  refine ⟨step_frame op sw, ?_, ⟨rfl, rfl, rfl, rfl⟩, ?_, hf, ?_, ?_⟩
  · rw [emitted_append _ _ _ t1]; exact a1
  · simp [emitted, step]
  · rw [emitted_append _ _ _ t]; exact a
  · simp [getFWVersion, getNumDisplays, getEnabled, getRCMode, hf.2.2.2]

/-! ## MODE transmissions of the row and column writes -/

theorem testBit_of_lt_256 (m j : Nat) (hm : m < 256) (hj : 8 ≤ j) : m.testBit j = false := by
  apply Nat.testBit_lt_two_pow
  calc m < 2 ^ 8 := hm
    _ ≤ 2 ^ j := Nat.pow_le_pow_right (by decide) hj

theorem toByte_lt (x : Nat) : toByte x < 256 := Nat.mod_lt _ (by decide)

theorem writeColumn_mode_lt (s : Driver) (w : Wire) (disp num content : Nat)
    (hm : s._mode < 256) : (writeColumn s w disp num content).1._mode < 256 := by
  rw [(writeColumn_any s w disp num content).1]
  split
  · exact hm
  · exact toByte_lt _

theorem writeRow_mode_lt (s : Driver) (w : Wire) (disp num content : Nat)
    (hm : s._mode < 256) : (writeRow s w disp num content).1._mode < 256 := by
  rw [(writeRow_any s w disp num content).1]
  split
  · exact toByte_lt _
  · exact hm

theorem modeTxs_select_and_data (address disp cmd content : Nat) (hc : cmd ≠ MODE) :
    modeTxs [Event.transmission address [UNIT, disp] true,
      Event.transmission address [cmd, content] true] = [] := by
  have h := emitsMode_select_and_data address disp cmd content hc
  unfold emitsMode at h
  unfold modeTxs
  rw [List.filter_eq_nil_iff]
  intro ev hev
  have := List.any_eq_false.mp h ev hev
  simpa using this

theorem modeTxs_append (a b : List Event) : modeTxs (a ++ b) = modeTxs a ++ modeTxs b := by
  simp [modeTxs]

theorem modeTxs_mode (address payload : Nat) :
    modeTxs [Event.transmission address [ MODE, payload] true] =
      [Event.transmission address [ MODE, payload] true] := by
  simp [modeTxs, isModeTx]

theorem writeColumn_modeTxs (s : Driver) (w : Wire) (disp num content : Nat)
    (hd : disp < 8) (hn : num < 256) (h254 : num ≠ 254) :
    modeTxs (emitted w (writeColumn s w disp num content).2) =
      if s._mode.testBit disp = false then
        [Event.transmission s._i2c_address
          [ MODE, (writeColumn s w disp num content).1._mode] true]
      else [] := by
  rw [writeColumn_emitted s w disp num content hd, modeTxs_append,
    modeTxs_select_and_data _ _ _ _ (toByte_BYTE1_add_ne_MODE num hn h254)]
  split
  · rw [modeTxs_mode]; simp
  · simp [modeTxs]

theorem writeRow_modeTxs (s : Driver) (w : Wire) (disp num content : Nat)
    (hd : disp < 8) (hn : num < 256) (h254 : num ≠ 254) :
    modeTxs (emitted w (writeRow s w disp num content).2) =
      if s._mode.testBit disp = true then
        [Event.transmission s._i2c_address
          [ MODE, (writeRow s w disp num content).1._mode] true]
      else [] := by
  rw [writeRow_emitted s w disp num content hd, modeTxs_append,
    modeTxs_select_and_data _ _ _ _ (toByte_BYTE1_add_ne_MODE num hn h254)]
  split
  · rw [modeTxs_mode]; simp
  · simp [modeTxs]

theorem writeColumn_other_bits (s : Driver) (w : Wire) (disp num content j : Nat)
    (hd : disp < 8) (hm : s._mode < 256) (hj : j ≠ disp) :
    (writeColumn s w disp num content).1._mode.testBit j = s._mode.testBit j := by
  by_cases h8 : j < 8
  · rw [writeColumn_mode_testBit s w disp num content j h8 hd,
      if_neg (fun h => hj h.symm)]
  · rw [testBit_of_lt_256 _ j (writeColumn_mode_lt s w disp num content hm) (by omega),
      testBit_of_lt_256 _ j hm (by omega)]

theorem writeRow_other_bits (s : Driver) (w : Wire) (disp num content j : Nat)
    (hd : disp < 8) (hm : s._mode < 256) (hj : j ≠ disp) :
    (writeRow s w disp num content).1._mode.testBit j = s._mode.testBit j := by
  by_cases h8 : j < 8
  · rw [writeRow_mode_testBit s w disp num content j h8 hd, if_neg (fun h => hj h.symm)]
  · rw [testBit_of_lt_256 _ j (writeRow_mode_lt s w disp num content hm) (by omega),
      testBit_of_lt_256 _ j hm (by omega)]

/-- C13 (as stated, refuted): on a driver whose display 0 is cached as column mode
(mask `0x01`), `writeColumn(0, 254, 0x55)` emits `[0x05, 0x00]`, `[0x04, 0x55]`; the
second has command byte MODE and payload `0x55`, while the mask cached after the call
is `0x01`. -/
theorem mode_coded_payload_not_mask :
    emitted columnDriver.2 (writeColumn columnDriver.1 columnDriver.2 0 254 0x55).2 =
        [Event.transmission 0x10 [0x05, 0x00] true,
          Event.transmission 0x10 [0x04, 0x55] true] ∧
      isModeTx (Event.transmission 0x10 [0x04, 0x55] true) = true ∧
      (writeColumn columnDriver.1 columnDriver.2 0 254 0x55).1._mode = 0x01 ∧
      modeTxs (emitted columnDriver.2 (writeColumn columnDriver.1 columnDriver.2 0 254
          0x55).2) ≠
        [Event.transmission 0x10
          [ MODE, (writeColumn columnDriver.1 columnDriver.2 0 254 0x55).1._mode] true] := by
  decide

/-- C13 (amended): for every display index `disp` in `[0,7]` and every byte-valued prior
mode bitmask, `writeColumn(disp, ..)` and `writeRow(disp, ..)` leave every bit
`j != disp` of the mode bitmask as it was; each emits unit-select and data-write,
preceded by the transmission `[MODE, mask cached after the call]` exactly when the
orientation changes; and when the row/column index is a byte other than 254, the
transmissions with command byte MODE it emits are that one transmission or none, so the
payload of every such transmission is the entire mask cached after the call. -/
theorem mode_write_changes_one_bit (s : Driver) (w : Wire) (disp num content : Nat)
    (hd : disp < 8) (hm : s._mode < 256) :
    (∀ j, j ≠ disp →
        (writeColumn s w disp num content).1._mode.testBit j = s._mode.testBit j ∧
        (writeRow s w disp num content).1._mode.testBit j = s._mode.testBit j) ∧
      emitted w (writeColumn s w disp num content).2 =
        (if s._mode.testBit disp = false then
            [Event.transmission s._i2c_address
              [ MODE, (writeColumn s w disp num content).1._mode] true]
          else []) ++
          [Event.transmission s._i2c_address [UNIT, disp] true,
            Event.transmission s._i2c_address [toByte (BYTE1 + num), content] true] ∧
      emitted w (writeRow s w disp num content).2 =
        (if s._mode.testBit disp = true then
            [Event.transmission s._i2c_address
              [ MODE, (writeRow s w disp num content).1._mode] true]
          else []) ++
          [Event.transmission s._i2c_address [UNIT, disp] true,
            Event.transmission s._i2c_address [toByte (BYTE1 + num), content] true] ∧
      (num < 256 → num ≠ 254 →
        modeTxs (emitted w (writeColumn s w disp num content).2) =
            (if s._mode.testBit disp = false then
              [Event.transmission s._i2c_address
                [ MODE, (writeColumn s w disp num content).1._mode] true]
            else []) ∧
          modeTxs (emitted w (writeRow s w disp num content).2) =
            (if s._mode.testBit disp = true then
              [Event.transmission s._i2c_address
                [ MODE, (writeRow s w disp num content).1._mode] true]
            else [])) :=
  ⟨fun j hj => ⟨writeColumn_other_bits s w disp num content j hd hm hj,
      writeRow_other_bits s w disp num content j hd hm hj⟩,
    writeColumn_emitted s w disp num content hd,
    writeRow_emitted s w disp num content hd,
    fun hn h254 => ⟨writeColumn_modeTxs s w disp num content hd hn h254,
      writeRow_modeTxs s w disp num content hd hn h254⟩⟩

/-- Witness of C13 (amended): `writeColumn(1, 3, 0xAA)` on a driver with mask `0x01`
keeps bit 0, and its only MODE transmission carries the whole new mask `0x03`. -/
theorem mode_write_changes_one_bit_witness :
    ((1 : Nat) < 8 ∧ columnDriver.1._mode < 256 ∧ (0 : Nat) ≠ 1 ∧ (3 : Nat) < 256 ∧
        (3 : Nat) ≠ 254) ∧
      (writeColumn columnDriver.1 columnDriver.2 1 3 0xAA).1._mode.testBit 0 =
        columnDriver.1._mode.testBit 0 ∧
      modeTxs (emitted columnDriver.2 (writeColumn columnDriver.1 columnDriver.2 1 3
          0xAA).2) = [Event.transmission 0x10 [0x04, 0x03] true] :=
  ⟨by decide,
    ((mode_write_changes_one_bit columnDriver.1 columnDriver.2 1 3 0xAA (by decide)
      (by decide)).1 0 (by decide)).1,
    ((mode_write_changes_one_bit columnDriver.1 columnDriver.2 1 3 0xAA (by decide)
      (by decide)).2.2.2 (by decide) (by decide)).1⟩

/-! ## Switching a display to column mode and back -/

theorem columnThenRow_mode (s : Driver) (w : Wire) (disp c1 v1 c2 v2 : Nat)
    (hd : disp < 8) (hm : s._mode < 256) (hbit : s._mode.testBit disp = false) :
    (columnThenRow s w disp c1 v1 c2 v2).1._mode = s._mode := by
  unfold columnThenRow
  apply Nat.eq_of_testBit_eq
  intro j
  by_cases hj : j = disp
  · subst hj
    rw [writeRow_mode_testBit _ _ _ _ _ _ hd hd, if_pos rfl, hbit]
  · rw [writeRow_other_bits _ _ _ _ _ _ hd (writeColumn_mode_lt s w disp c1 v1 hm) hj,
      writeColumn_other_bits _ _ _ _ _ _ hd hm hj]

theorem rowThenColumn_mode (s : Driver) (w : Wire) (disp c1 v1 c2 v2 : Nat)
    (hd : disp < 8) (hm : s._mode < 256) (hbit : s._mode.testBit disp = true) :
    (rowThenColumn s w disp c1 v1 c2 v2).1._mode = s._mode := by
  unfold rowThenColumn
  apply Nat.eq_of_testBit_eq
  intro j
  by_cases hj : j = disp
  · subst hj
    rw [writeColumn_mode_testBit _ _ _ _ _ _ hd hd, if_pos rfl, hbit]
  · rw [writeColumn_other_bits _ _ _ _ _ _ hd (writeRow_mode_lt s w disp c1 v1 hm) hj,
      writeRow_other_bits _ _ _ _ _ _ hd hm hj]

theorem writeColumn_sets_bit (s : Driver) (w : Wire) (disp num content : Nat)
    (hd : disp < 8) : (writeColumn s w disp num content).1._mode.testBit disp = true := by
  rw [writeColumn_mode_testBit _ _ _ _ _ _ hd hd, if_pos rfl]

theorem writeRow_clears_bit (s : Driver) (w : Wire) (disp num content : Nat)
    (hd : disp < 8) : (writeRow s w disp num content).1._mode.testBit disp = false := by
  rw [writeRow_mode_testBit _ _ _ _ _ _ hd hd, if_pos rfl]

theorem writeColumn_address (s : Driver) (w : Wire) (disp num content : Nat) :
    (writeColumn s w disp num content).1._i2c_address = s._i2c_address :=
  (step_frame (Op.writeColumn disp num content) (s, w)).1

theorem writeRow_address (s : Driver) (w : Wire) (disp num content : Nat) :
    (writeRow s w disp num content).1._i2c_address = s._i2c_address :=
  (step_frame (Op.writeRow disp num content) (s, w)).1

theorem columnThenRow_trace (s : Driver) (w : Wire) (disp c1 v1 c2 v2 : Nat)
    (hd : disp < 8) (hm : s._mode < 256) (hbit : s._mode.testBit disp = false) :
    emitted w (columnThenRow s w disp c1 v1 c2 v2).2 =
      [Event.transmission s._i2c_address [ MODE, s._mode ||| 1 <<< disp] true,
        Event.transmission s._i2c_address [UNIT, disp] true,
        Event.transmission s._i2c_address [toByte (BYTE1 + c1), v1] true,
        Event.transmission s._i2c_address [ MODE, s._mode] true,
        Event.transmission s._i2c_address [UNIT, disp] true,
        Event.transmission s._i2c_address [toByte (BYTE1 + c2), v2] true] := by
  have hmode := columnThenRow_mode s w disp c1 v1 c2 v2 hd hm hbit
  obtain ⟨a1, a2⟩ := writeColumn_of_row s w disp c1 v1 (by omega) hbit
  obtain ⟨b1, b2⟩ := writeRow_of_column (writeColumn s w disp c1 v1).1
    (writeColumn s w disp c1 v1).2 disp c2 v2 (by omega)
    (writeColumn_sets_bit s w disp c1 v1 hd)
  have hb1 : (columnThenRow s w disp c1 v1 c2 v2).1._mode =
      toByte ((writeColumn s w disp c1 v1).1._mode &&& intNot (shl1 disp)) := by
    unfold columnThenRow; rw [b1]
  apply emitted_append
  unfold columnThenRow
  rw [b2, ← hb1, hmode, writeColumn_address, a2, toByte_or_shl1 _ _ hm hd]
  simp

theorem rowThenColumn_trace (s : Driver) (w : Wire) (disp c1 v1 c2 v2 : Nat)
    (hd : disp < 8) (hm : s._mode < 256) (hbit : s._mode.testBit disp = true) :
    emitted w (rowThenColumn s w disp c1 v1 c2 v2).2 =
      [Event.transmission s._i2c_address [ MODE, s._mode &&& (0xFF ^^^ 1 <<< disp)] true,
        Event.transmission s._i2c_address [UNIT, disp] true,
        Event.transmission s._i2c_address [toByte (BYTE1 + c1), v1] true,
        Event.transmission s._i2c_address [ MODE, s._mode] true,
        Event.transmission s._i2c_address [UNIT, disp] true,
        Event.transmission s._i2c_address [toByte (BYTE1 + c2), v2] true] := by
  have hmode := rowThenColumn_mode s w disp c1 v1 c2 v2 hd hm hbit
  obtain ⟨a1, a2⟩ := writeRow_of_column s w disp c1 v1 (by omega) hbit
  obtain ⟨b1, b2⟩ := writeColumn_of_row (writeRow s w disp c1 v1).1
    (writeRow s w disp c1 v1).2 disp c2 v2 (by omega)
    (writeRow_clears_bit s w disp c1 v1 hd)
  have hb1 : (rowThenColumn s w disp c1 v1 c2 v2).1._mode =
      toByte ((writeRow s w disp c1 v1).1._mode ||| shl1 disp) := by
    unfold rowThenColumn; rw [b1]
  apply emitted_append
  unfold rowThenColumn
  rw [b2, ← hb1, hmode, writeRow_address, a2, toByte_and_intNot_shl1 _ _ hm hd]
  simp

theorem modeTxs_six (address p1 p2 disp cmd1 v1 cmd2 v2 : Nat)
    (h1 : cmd1 ≠ MODE) (h2 : cmd2 ≠ MODE) :
    modeTxs [Event.transmission address [ MODE, p1] true,
        Event.transmission address [UNIT, disp] true,
        Event.transmission address [cmd1, v1] true,
        Event.transmission address [ MODE, p2] true,
        Event.transmission address [UNIT, disp] true,
        Event.transmission address [cmd2, v2] true] =
      [Event.transmission address [ MODE, p1] true,
        Event.transmission address [ MODE, p2] true] := by
  have e : [Event.transmission address [ MODE, p1] true,
        Event.transmission address [UNIT, disp] true,
        Event.transmission address [cmd1, v1] true,
        Event.transmission address [ MODE, p2] true,
        Event.transmission address [UNIT, disp] true,
        Event.transmission address [cmd2, v2] true] =
      [Event.transmission address [ MODE, p1] true] ++
        ([Event.transmission address [UNIT, disp] true,
          Event.transmission address [cmd1, v1] true] ++
        ([Event.transmission address [ MODE, p2] true] ++
        [Event.transmission address [UNIT, disp] true,
          Event.transmission address [cmd2, v2] true])) := by simp
  rw [e, modeTxs_append, modeTxs_append, modeTxs_append, modeTxs_mode, modeTxs_mode,
    modeTxs_select_and_data _ _ _ _ h1, modeTxs_select_and_data _ _ _ _ h2]
  simp

/-- C15 (as stated, refuted): on a fresh driver (mask 0), `writeColumn(0, 254, 0x00)`
followed by `writeRow(0, 0, 0x00)` puts three transmissions with command byte MODE on
the bus, not two: the data-write of the column write is `[0x04, 0x00]`. -/
theorem three_mode_coded_transmissions :
    freshDriver.1._mode.testBit 0 = false ∧
      emitted freshDriver.2 (columnThenRow freshDriver.1 freshDriver.2 0 254 0x00 0 0x00).2 =
        [Event.transmission 0x10 [0x04, 0x01] true,
          Event.transmission 0x10 [0x05, 0x00] true,
          Event.transmission 0x10 [0x04, 0x00] true,
          Event.transmission 0x10 [0x04, 0x00] true,
          Event.transmission 0x10 [0x05, 0x00] true,
          Event.transmission 0x10 [0x06, 0x00] true] ∧
      (modeTxs (emitted freshDriver.2
        (columnThenRow freshDriver.1 freshDriver.2 0 254 0x00 0 0x00).2)).length = 3 := by
  decide

/-- C15 (amended): for every display index `disp` in `[0,7]` and every state with a
byte-valued mode bitmask whose bit `disp` is 0, `writeColumn(disp, ..)` followed by
`writeRow(disp, ..)` restores the mode bitmask to its original value and emits
`[MODE, original | (1 << disp)]`, unit-select, data-write, `[MODE, original]`,
unit-select, data-write; when both row/column indices are bytes other than 254, the
transmissions with command byte MODE in the combined trace are exactly these two.
Symmetrically, when bit `disp` is 1, `writeRow` then `writeColumn` restores the mask,
with MODE payloads `original & ~(1 << disp)` and then `original`. -/
theorem column_row_round_trip (s : Driver) (w : Wire) (disp c1 v1 c2 v2 : Nat)
    (hd : disp < 8) (hm : s._mode < 256) :
    (s._mode.testBit disp = false →
        (columnThenRow s w disp c1 v1 c2 v2).1._mode = s._mode ∧
          emitted w (columnThenRow s w disp c1 v1 c2 v2).2 =
            [Event.transmission s._i2c_address [ MODE, s._mode ||| 1 <<< disp] true,
              Event.transmission s._i2c_address [UNIT, disp] true,
              Event.transmission s._i2c_address [toByte (BYTE1 + c1), v1] true,
              Event.transmission s._i2c_address [ MODE, s._mode] true,
              Event.transmission s._i2c_address [UNIT, disp] true,
              Event.transmission s._i2c_address [toByte (BYTE1 + c2), v2] true] ∧
          (c1 < 256 → c1 ≠ 254 → c2 < 256 → c2 ≠ 254 →
            modeTxs (emitted w (columnThenRow s w disp c1 v1 c2 v2).2) =
              [Event.transmission s._i2c_address [ MODE, s._mode ||| 1 <<< disp] true,
                Event.transmission s._i2c_address [ MODE, s._mode] true])) ∧
      (s._mode.testBit disp = true →
        (rowThenColumn s w disp c1 v1 c2 v2).1._mode = s._mode ∧
          emitted w (rowThenColumn s w disp c1 v1 c2 v2).2 =
            [Event.transmission s._i2c_address
                [ MODE, s._mode &&& (0xFF ^^^ 1 <<< disp)] true,
              Event.transmission s._i2c_address [UNIT, disp] true,
              Event.transmission s._i2c_address [toByte (BYTE1 + c1), v1] true,
              Event.transmission s._i2c_address [ MODE, s._mode] true,
              Event.transmission s._i2c_address [UNIT, disp] true,
              Event.transmission s._i2c_address [toByte (BYTE1 + c2), v2] true] ∧
          (c1 < 256 → c1 ≠ 254 → c2 < 256 → c2 ≠ 254 →
            modeTxs (emitted w (rowThenColumn s w disp c1 v1 c2 v2).2) =
              [Event.transmission s._i2c_address
                  [ MODE, s._mode &&& (0xFF ^^^ 1 <<< disp)] true,
                Event.transmission s._i2c_address [ MODE, s._mode] true])) := by
  refine ⟨fun hbit => ⟨columnThenRow_mode s w disp c1 v1 c2 v2 hd hm hbit,
      columnThenRow_trace s w disp c1 v1 c2 v2 hd hm hbit, ?_⟩,
    fun hbit => ⟨rowThenColumn_mode s w disp c1 v1 c2 v2 hd hm hbit,
      rowThenColumn_trace s w disp c1 v1 c2 v2 hd hm hbit, ?_⟩⟩
  · intro h1 h1n h2 h2n
    rw [columnThenRow_trace s w disp c1 v1 c2 v2 hd hm hbit]
    exact modeTxs_six _ _ _ _ _ _ _ _ (toByte_BYTE1_add_ne_MODE c1 h1 h1n)
      (toByte_BYTE1_add_ne_MODE c2 h2 h2n)
  · intro h1 h1n h2 h2n
    rw [rowThenColumn_trace s w disp c1 v1 c2 v2 hd hm hbit]
    exact modeTxs_six _ _ _ _ _ _ _ _ (toByte_BYTE1_add_ne_MODE c1 h1 h1n)
      (toByte_BYTE1_add_ne_MODE c2 h2 h2n)

/-- Witness of C15 (amended): from mask `0x01`, `writeColumn(1, 3, 0xAA)` then
`writeRow(1, 2, 0x0F)` restores `0x01` with MODE payloads `0x03`, `0x01`; from the same
mask, `writeRow(0, 3, 0xAA)` then `writeColumn(0, 2, 0x0F)` restores it with MODE
payloads `0x00`, `0x01`. -/
theorem column_row_round_trip_witness :
    ((1 : Nat) < 8 ∧ (0 : Nat) < 8 ∧ columnDriver.1._mode < 256 ∧
        columnDriver.1._mode.testBit 1 = false ∧ columnDriver.1._mode.testBit 0 = true ∧
        (3 : Nat) < 256 ∧ (3 : Nat) ≠ 254 ∧ (2 : Nat) < 256 ∧ (2 : Nat) ≠ 254) ∧
      (columnThenRow columnDriver.1 columnDriver.2 1 3 0xAA 2 0x0F).1._mode = 0x01 ∧
      modeTxs (emitted columnDriver.2
          (columnThenRow columnDriver.1 columnDriver.2 1 3 0xAA 2 0x0F).2) =
        [Event.transmission 0x10 [0x04, 0x03] true,
          Event.transmission 0x10 [0x04, 0x01] true] ∧
      (rowThenColumn columnDriver.1 columnDriver.2 0 3 0xAA 2 0x0F).1._mode = 0x01 ∧
      modeTxs (emitted columnDriver.2
          (rowThenColumn columnDriver.1 columnDriver.2 0 3 0xAA 2 0x0F).2) =
        [Event.transmission 0x10 [0x04, 0x00] true,
          Event.transmission 0x10 [0x04, 0x01] true] :=
  ⟨by decide,
    ((column_row_round_trip columnDriver.1 columnDriver.2 1 3 0xAA 2 0x0F (by decide)
      (by decide)).1 (by decide)).1,
    ((column_row_round_trip columnDriver.1 columnDriver.2 1 3 0xAA 2 0x0F (by decide)
      (by decide)).1 (by decide)).2.2 (by decide) (by decide) (by decide) (by decide),
    ((column_row_round_trip columnDriver.1 columnDriver.2 0 3 0xAA 2 0x0F (by decide)
      (by decide)).2 (by decide)).1,
    ((column_row_round_trip columnDriver.1 columnDriver.2 0 3 0xAA 2 0x0F (by decide)
      (by decide)).2 (by decide)).2.2 (by decide) (by decide) (by decide) (by decide)⟩

/-! ## A constructor-provided mode, out-of-range displays, the enabled mask read back -/

/-- C16 (as stated, refuted): after `I2CMatrix(0x10, 2, 0x01, 0x01)` (bit 0 of the
initial mode set), the first `writeColumn(0, 254, 0x00)` emits `[0x05, 0x00]`,
`[0x04, 0x00]`: the data-write has command byte MODE. -/
theorem first_column_write_mode_coded :
    (0x01 : Nat).testBit 0 = true ∧
      emitted columnDriver.2 (writeColumn columnDriver.1 columnDriver.2 0 254 0x00).2 =
        [Event.transmission 0x10 [0x05, 0x00] true,
          Event.transmission 0x10 [0x04, 0x00] true] ∧
      emitsMode (emitted columnDriver.2
        (writeColumn columnDriver.1 columnDriver.2 0 254 0x00).2) = true := by
  decide

/-- C16 (amended): if the driver is built with the four-argument constructor and a
byte-valued initial mode `m` whose bit `i` (`i` in `[0,7]`) is set, then construction
sends mode byte `0x00` in the configuration transmission and no transmission with
command byte MODE; the first `writeColumn(i, ..)` after construction emits exactly
unit-select and data-write, so for a column index that is a byte other than 254 it emits
no transmission with command byte MODE; the first `writeRow(i, ..)` emits
`[MODE, m & ~(1 << i)]`, then unit-select and data-write. -/
theorem constructed_column_mode (info0 : Fin 4 → Nat) (w : Wire)
    (address N b m i num content : Nat)
    (hi : i < 8) (hm : m < 256) (hbit : m.testBit i = true) :
    (emitted w (new4 info0 w address N b m).2 =
          [Event.transmission address [0x00, 0x00] true,
            Event.delay 500,
            Event.transmission address [0x01, N, enabledLoop N 0, b, 0x00] true,
            Event.transmission address [0x0E] false,
            Event.requestFrom address 4] ∧
        emitsMode (emitted w (new4 info0 w address N b m).2) = false) ∧
      emitted (new4 info0 w address N b m).2
          (writeColumn (new4 info0 w address N b m).1 (new4 info0 w address N b m).2
            i num content).2 =
        [Event.transmission address [UNIT, i] true,
          Event.transmission address [toByte (BYTE1 + num), content] true] ∧
      (num < 256 → num ≠ 254 →
        emitsMode (emitted (new4 info0 w address N b m).2
          (writeColumn (new4 info0 w address N b m).1 (new4 info0 w address N b m).2
            i num content).2) = false) ∧
      emitted (new4 info0 w address N b m).2
          (writeRow (new4 info0 w address N b m).1 (new4 info0 w address N b m).2
            i num content).2 =
        [Event.transmission address [ MODE, m &&& (0xFF ^^^ 1 <<< i)] true,
          Event.transmission address [UNIT, i] true,
          Event.transmission address [toByte (BYTE1 + num), content] true] := by
  have hmode : (new4 info0 w address N b m).1._mode = m := (init_fields _ w).2.2.2.1
  have haddr : (new4 info0 w address N b m).1._i2c_address = address := (init_fields _ w).1
  have ht : emitted w (new4 info0 w address N b m).2 =
      [Event.transmission address [0x00, 0x00] true,
        Event.delay 500,
        Event.transmission address [0x01, N, enabledLoop N 0, b, 0x00] true,
        Event.transmission address [0x0E] false,
        Event.requestFrom address 4] := emitted_append _ _ _ (init_trace _ w)
  have hb : (new4 info0 w address N b m).1._mode.testBit i = true := by rw [hmode]; exact hbit
  have hc := (writeColumn_of_column (new4 info0 w address N b m).1
    (new4 info0 w address N b m).2 i num content (by omega) hb).2
  have hr := (writeRow_of_column (new4 info0 w address N b m).1
    (new4 info0 w address N b m).2 i num content (by omega) hb).2
  rw [haddr] at hc
  rw [haddr, hmode, toByte_and_intNot_shl1 _ _ hm hi] at hr
  refine ⟨⟨ht, ?_⟩, emitted_append _ _ _ hc, ?_, emitted_append _ _ _ hr⟩
  · rw [ht]; simp [emitsMode, isModeTx, MODE]
  · intro hn h254
    rw [emitted_append _ _ _ hc]
    exact emitsMode_select_and_data _ _ _ _ (toByte_BYTE1_add_ne_MODE num hn h254)

/-- Witness of C16 (amended) for `I2CMatrix(0x10, 2, 0x01, 0x01)` and display 0:
`writeColumn(0, 3, 0xAA)` emits `[0x05, 0x00]`, `[0x09, 0xAA]`, and `writeRow(0, 3, 0xAA)`
emits `[0x04, 0x00]` first. -/
theorem constructed_column_mode_witness :
    ((0 : Nat) < 8 ∧ (0x01 : Nat) < 256 ∧ (0x01 : Nat).testBit 0 = true ∧ (3 : Nat) < 256 ∧
        (3 : Nat) ≠ 254) ∧
      emitted columnDriver.2 (writeColumn columnDriver.1 columnDriver.2 0 3 0xAA).2 =
        [Event.transmission 0x10 [0x05, 0x00] true,
          Event.transmission 0x10 [0x09, 0xAA] true] ∧
      emitsMode (emitted columnDriver.2
        (writeColumn columnDriver.1 columnDriver.2 0 3 0xAA).2) = false ∧
      emitted columnDriver.2 (writeRow columnDriver.1 columnDriver.2 0 3 0xAA).2 =
        [Event.transmission 0x10 [0x04, 0x00] true,
          Event.transmission 0x10 [0x05, 0x00] true,
          Event.transmission 0x10 [0x09, 0xAA] true] :=
  ⟨by decide,
    (constructed_column_mode (fun _ => 0) idleWire 0x10 2 0x01 0x01 0 3 0xAA (by decide)
      (by decide) (by decide)).2.1,
    (constructed_column_mode (fun _ => 0) idleWire 0x10 2 0x01 0x01 0 3 0xAA (by decide)
      (by decide) (by decide)).2.2.1 (by decide) (by decide),
    (constructed_column_mode (fun _ => 0) idleWire 0x10 2 0x01 0x01 0 3 0xAA (by decide)
      (by decide) (by decide)).2.2.2⟩

theorem toBool_and_shl1_high (m disp : Nat) (hm : m < 256) (h8 : 8 ≤ disp)
    (h16 : disp < 15) : toBool (m &&& shl1 disp) = false := by
  rw [toBool_and_shl1 m disp h16]
  exact testBit_of_lt_256 m disp hm h8

theorem toByte_or_shl1_high (m disp : Nat) (hm : m < 256) (h8 : 8 ≤ disp)
    (h16 : disp < 15) : toByte (m ||| shl1 disp) = m := by
  apply Nat.eq_of_testBit_eq
  intro j
  by_cases hj : j < 8
  · rw [testBit_toByte _ _ hj, Nat.testBit_or, testBit_shl1 disp j h16]
    have : ¬ disp = j := by omega
    simp [this]
  · rw [testBit_of_lt_256 _ j (toByte_lt _) (by omega), testBit_of_lt_256 _ j hm (by omega)]

theorem writeColumn_high (s : Driver) (w : Wire) (disp num content : Nat)
    (hm : s._mode < 256) (h8 : 8 ≤ disp) (h16 : disp < 15) :
    (writeColumn s w disp num content).1 = s ∧
      (writeColumn s w disp num content).2.trace =
        w.trace ++ [Event.transmission s._i2c_address [ MODE, s._mode] true,
          Event.transmission s._i2c_address [UNIT, disp] true,
          Event.transmission s._i2c_address [toByte (BYTE1 + num), content] true] := by
  obtain ⟨h1, h2⟩ := writeColumn_any s w disp num content
  rw [toBool_and_shl1_high _ _ hm h8 h16, toByte_or_shl1_high _ _ hm h8 h16] at h1 h2
  exact ⟨by simpa using h1, by simpa using h2⟩

theorem writeRow_high (s : Driver) (w : Wire) (disp num content : Nat)
    (hm : s._mode < 256) (h8 : 8 ≤ disp) (h16 : disp < 15) :
    (writeRow s w disp num content).1 = s ∧
      (writeRow s w disp num content).2.trace =
        w.trace ++ [Event.transmission s._i2c_address [UNIT, disp] true,
          Event.transmission s._i2c_address [toByte (BYTE1 + num), content] true] := by
  obtain ⟨h1, h2⟩ := writeRow_any s w disp num content
  rw [toBool_and_shl1_high _ _ hm h8 h16] at h1 h2
  exact ⟨by simpa using h1, by simpa using h2⟩

/-- C18 (as stated, refuted): on a fresh driver, `writeRow(8, 254, 0x00)` emits
`[0x05, 0x08]`, `[0x04, 0x00]`: the data-write has command byte MODE. -/
theorem out_of_range_row_mode_coded_write :
    emitted freshDriver.2 (writeRow freshDriver.1 freshDriver.2 8 254 0x00).2 =
        [Event.transmission 0x10 [0x05, 0x08] true,
          Event.transmission 0x10 [0x04, 0x00] true] ∧
      emitsMode (emitted freshDriver.2
        (writeRow freshDriver.1 freshDriver.2 8 254 0x00).2) = true := by
  decide

/-- C18 (amended): for a display index `disp` in `[8,14]` and a byte-valued mode
bitmask, `writeColumn(disp, ..)` leaves the driver state (the mode bitmask in
particular) unchanged and emits `[MODE, unchanged mask]`, unit-select, data-write, and
so does a second `writeColumn(disp, ..)` right after; `writeRow(disp, ..)` leaves the
state unchanged and emits exactly unit-select and data-write, so for a row index that is
a byte other than 254 it emits no transmission with command byte MODE. -/
theorem out_of_range_display (s : Driver) (w : Wire) (disp num content num2 content2 : Nat)
    (h8 : 8 ≤ disp) (h14 : disp ≤ 14) (hm : s._mode < 256) :
    ((writeColumn s w disp num content).1 = s ∧
        (writeColumn s w disp num content).1._mode = s._mode) ∧
      emitted w (writeColumn s w disp num content).2 =
        [Event.transmission s._i2c_address [ MODE, s._mode] true,
          Event.transmission s._i2c_address [UNIT, disp] true,
          Event.transmission s._i2c_address [toByte (BYTE1 + num), content] true] ∧
      emitted (writeColumn s w disp num content).2
          (writeColumn (writeColumn s w disp num content).1
            (writeColumn s w disp num content).2 disp num2 content2).2 =
        [Event.transmission s._i2c_address [ MODE, s._mode] true,
          Event.transmission s._i2c_address [UNIT, disp] true,
          Event.transmission s._i2c_address [toByte (BYTE1 + num2), content2] true] ∧
      ((writeRow s w disp num content).1 = s ∧
        (writeRow s w disp num content).1._mode = s._mode) ∧
      emitted w (writeRow s w disp num content).2 =
        [Event.transmission s._i2c_address [UNIT, disp] true,
          Event.transmission s._i2c_address [toByte (BYTE1 + num), content] true] ∧
      (num < 256 → num ≠ 254 →
        emitsMode (emitted w (writeRow s w disp num content).2) = false) := by
  obtain ⟨c1, c2⟩ := writeColumn_high s w disp num content hm h8 (by omega)
  obtain ⟨r1, r2⟩ := writeRow_high s w disp num content hm h8 (by omega)
  have c3 := (writeColumn_high (writeColumn s w disp num content).1
    (writeColumn s w disp num content).2 disp num2 content2 (by rw [c1]; exact hm) h8
    (by omega)).2
  rw [c1] at c3
  refine ⟨⟨c1, by rw [c1]⟩, emitted_append _ _ _ c2, ?_, ⟨r1, by rw [r1]⟩,
    emitted_append _ _ _ r2, ?_⟩
  · rw [c1]; exact emitted_append _ _ _ c3
  · intro hn h254
    rw [emitted_append _ _ _ r2]
    exact emitsMode_select_and_data _ _ _ _ (toByte_BYTE1_add_ne_MODE num hn h254)

/-- Witness of C18 (amended) at display 8 on a fresh driver: the column write emits
`[0x04, 0x00]` first and leaves the mask `0x00`; the row write emits `[0x05, 0x08]`,
`[0x09, 0xAA]` only. -/
theorem out_of_range_display_witness :
    ((8 : Nat) ≤ 8 ∧ (8 : Nat) ≤ 14 ∧ freshDriver.1._mode < 256 ∧ (3 : Nat) < 256 ∧
        (3 : Nat) ≠ 254) ∧
      (writeColumn freshDriver.1 freshDriver.2 8 3 0xAA).1._mode = 0x00 ∧
      emitted freshDriver.2 (writeColumn freshDriver.1 freshDriver.2 8 3 0xAA).2 =
        [Event.transmission 0x10 [0x04, 0x00] true,
          Event.transmission 0x10 [0x05, 0x08] true,
          Event.transmission 0x10 [0x09, 0xAA] true] ∧
      emitted freshDriver.2 (writeRow freshDriver.1 freshDriver.2 8 3 0xAA).2 =
        [Event.transmission 0x10 [0x05, 0x08] true,
          Event.transmission 0x10 [0x09, 0xAA] true] ∧
      emitsMode (emitted freshDriver.2
        (writeRow freshDriver.1 freshDriver.2 8 3 0xAA).2) = false :=
  ⟨by decide,
    (out_of_range_display freshDriver.1 freshDriver.2 8 3 0xAA 4 0x55 (by decide)
      (by decide) (by decide)).1.2,
    (out_of_range_display freshDriver.1 freshDriver.2 8 3 0xAA 4 0x55 (by decide)
      (by decide) (by decide)).2.1,
    (out_of_range_display freshDriver.1 freshDriver.2 8 3 0xAA 4 0x55 (by decide)
      (by decide) (by decide)).2.2.2.2.1,
    (out_of_range_display freshDriver.1 freshDriver.2 8 3 0xAA 4 0x55 (by decide)
      (by decide) (by decide)).2.2.2.2.2 (by decide) (by decide)⟩

theorem readDeviceInfo_enabled_le (s : Driver) (w : Wire) :
    getEnabled (_readDeviceInfo s w).1 ≤ 0x7F := by
  have hb : ∀ r : Nat, toByte (r &&& 0x7F) ≤ 0x7F := fun r => by
    rw [toByte_of_lt _ (lt_of_le_of_lt Nat.and_le_right (by decide))]
    exact Nat.and_le_right
  simp only [getEnabled, _readDeviceInfo]
  rw [Function.update_noteq (by decide), Function.update_same]
  exact hb _

theorem init_enabled_le (s : Driver) (w : Wire) : getEnabled (_init s w).1 ≤ 0x7F := by
  unfold _init
  exact readDeviceInfo_enabled_le _ _

theorem and_127_eq_iff (r mask : Nat) (hr : r < 256) (hmask : mask ≤ 0x7F) :
    r &&& 0x7F = mask ↔ r = mask ∨ r = mask + 128 := by
  have h : r &&& 0x7F = r % 128 := by
    have := Nat.and_pow_two_sub_one_eq_mod r 7
    simpa using this
  rw [h]
  omega

/-- C19 (as stated, refuted): with display count 2 the driver sends enabled mask `0x03`;
a slave answering `[0x01, 0x02, 0x83, 0x00]` does not echo it (`0x83` is not `0x03`),
yet `getEnabled()` returns `0x03`, equal to the mask sent. -/
theorem enabled_equal_without_echo :
    (new2 (fun _ => 0) { idleWire with slave := [0x01, 0x02, 0x83, 0x00] } 0x10 2).1._enabled
        = 0x03 ∧
      getEnabled
        (new2 (fun _ => 0) { idleWire with slave := [0x01, 0x02, 0x83, 0x00] } 0x10 2).1
        = 0x03 ∧
      ¬ (getEnabled
          (new2 (fun _ => 0) { idleWire with slave := [0x01, 0x02, 0x83, 0x00] } 0x10 2).1 =
          (new2 (fun _ => 0) { idleWire with slave := [0x01, 0x02, 0x83, 0x00] }
            0x10 2).1._enabled ↔
        (0x83 : Nat) = 0x03) := by
  decide

/-- C19 (amended): for display count 8 the enabled mask stored and sent at init is
`0xFF`, while `getEnabled()` is at most `0x7F` whatever the slave does, so the two
differ for every slave reply; for a count `N` in `[1,7]` and a slave handing over the
bytes `r0, r1, r2, r3`, `getEnabled()` equals the mask sent exactly when `r2 & 0x7F` is
that mask, that is, for a byte `r2`, when `r2` is the mask or the mask with the top bit
set. -/
theorem enabled_read_back (info0 : Fin 4 → Nat) (w : Wire) (address b m : Nat) :
    ((new4 info0 w address 8 b m).1._enabled = 0xFF ∧
        emitted w (new4 info0 w address 8 b m).2 =
          [Event.transmission address [0x00, 0x00] true,
            Event.delay 500,
            Event.transmission address [0x01, 8, 0xFF, b, 0x00] true,
            Event.transmission address [0x0E] false,
            Event.requestFrom address 4] ∧
        getEnabled (new4 info0 w address 8 b m).1 ≠ (new4 info0 w address 8 b m).1._enabled) ∧
      (∀ N, getEnabled (new4 info0 w address N b m).1 ≤ 0x7F) ∧
      (∀ N r0 r1 r2 r3 rest, 1 ≤ N → N ≤ 7 → w.slave = r0 :: r1 :: r2 :: r3 :: rest →
        (new4 info0 w address N b m).1._enabled = 1 <<< N - 1 ∧
          (getEnabled (new4 info0 w address N b m).1 =
              (new4 info0 w address N b m).1._enabled ↔
            r2 &&& 0x7F = 1 <<< N - 1) ∧
          (r2 < 256 →
            (getEnabled (new4 info0 w address N b m).1 =
                (new4 info0 w address N b m).1._enabled ↔
              r2 = 1 <<< N - 1 ∨ r2 = 1 <<< N - 1 + 128))) := by
  have hle : ∀ N, getEnabled (new4 info0 w address N b m).1 ≤ 0x7F := fun N =>
    init_enabled_le _ w
  have hen : ∀ N, (new4 info0 w address N b m).1._enabled = enabledLoop N 0 := fun N =>
    (init_fields _ w).2.2.2.2.1
  refine ⟨⟨?_, ?_, ?_⟩, hle, ?_⟩
  · rw [hen]; rfl
  · have := emitted_append _ _ _ (init_trace
      { _i2c_address := address, _num_displays := 8, _brightness := b, _mode := m,
        _enabled := 0x00, _device_info := info0 } w)
    exact this
  · have h1 := hle 8
    have h2 : (new4 info0 w address 8 b m).1._enabled = 0xFF := by rw [hen]; rfl
    omega
  · intro N r0 r1 r2 r3 rest h1 h7 hs
    have hmask : (new4 info0 w address N b m).1._enabled = 1 <<< N - 1 := by
      rw [hen, enabledLoop_low_bits N h1 (by omega)]
    have hget : getEnabled (new4 info0 w address N b m).1 = r2 &&& 0x7F :=
      (init_info _ w r0 r1 r2 r3 rest hs).2.2.1
    have hsmall : 1 <<< N - 1 ≤ 0x7F := by
      interval_cases N <;> decide
    refine ⟨hmask, by rw [hget, hmask], fun hr => ?_⟩
    rw [hget, hmask]
    exact and_127_eq_iff r2 _ hr hsmall

/-- Witness of C19 (amended) for count 2 and a slave answering
`[0x01, 0x02, 0x83, 0x00]`: `getEnabled()` equals the mask sent, `0x03`. -/
theorem enabled_read_back_witness :
    ((1 : Nat) ≤ 2 ∧ (2 : Nat) ≤ 7 ∧
        ({ idleWire with slave := [0x01, 0x02, 0x83, 0x00] } : Wire).slave =
          [0x01, 0x02, 0x83, 0x00] ∧ (0x83 : Nat) < 256) ∧
      (getEnabled (new4 (fun _ => 0) { idleWire with slave := [0x01, 0x02, 0x83, 0x00] }
            0x10 2 0x01 0x00).1 =
          (new4 (fun _ => 0) { idleWire with slave := [0x01, 0x02, 0x83, 0x00] }
            0x10 2 0x01 0x00).1._enabled ↔
        (0x83 : Nat) = 1 <<< 2 - 1 ∨ (0x83 : Nat) = 1 <<< 2 - 1 + 128) :=
  ⟨by decide,
    ((enabled_read_back (fun _ => 0) { idleWire with slave := [0x01, 0x02, 0x83, 0x00] }
      0x10 0x01 0x00).2.2 2 0x01 0x02 0x83 0x00 [] (by decide) (by decide) rfl).2.2
      (by decide)⟩

end I2CMatrix
